import Mathlib

/-!
Verification of the flow execution engine (`FlowExecutionService`,
`DelayProcessor` and friends) of the marketing-workflow repository.

The TypeScript sources are shallowly embedded below:

* JavaScript runtime values that occur in trigger contexts and node
  configurations are modelled by `JSVal`; JS coercions (`Number`, `String`,
  loose equality `==`, truthiness of `||`) are modelled by `toNumber`,
  `jsToString`, `jsLooseEq`, `jsTruthy`.  `Number` applied to a string is
  modelled for integer-valued strings; a string that does not parse is NaN,
  and NaN is represented by `Option.none`.
* The condition evaluator of `executeConditionalSplit` is embedded as
  `evalCondition` / `evalGroup` / `evalSplit`.
* The stateful engine (MongoDB execution document, in-memory idempotency
  maps, delay queue, retry backoff sleeps) is embedded as a state-passing
  interpreter over `EngineState`; thrown JS errors are `Except.error`.
  `Promise.all` over branch continuations is modelled as left-to-right
  sequential composition; none of the claims below depends on the
  interleaving order of sibling branches.
* Wall-clock time (`Date.now()`) is a logical clock `now` carried in the
  state; the engine never reads it back, so it is not advanced.
-/

namespace FlowSpec

/-- JavaScript runtime values, restricted to the JSON scalar shapes that occur
in trigger contexts and node configurations of this engine. -/
inductive JSVal where
  | undefined
  | null
  | bool (b : Bool)
  | num (n : Int)
  | str (s : String)
deriving DecidableEq

/-- JS truthiness: `undefined`, `null`, `false`, `0` and `""` are falsy. -/
def jsTruthy : JSVal → Bool
  | .undefined => false
  | .null => false
  | .bool b => b
  | .num n => n != 0
  | .str s => s != ""

/-- JS `Number(v)` coercion; `none` models NaN.  String parsing is modelled
for integer-valued strings (the engine's contexts hold JSON scalars);
a non-numeric string coerces to NaN, the empty/blank string to `0`. -/
def toNumber : JSVal → Option Int
  | .undefined => none
  | .null => some 0
  | .bool b => some (if b then 1 else 0)
  | .num n => some n
  | .str s => if s.trim = "" then some 0 else s.trim.toInt?

/-- JS `String(v)` coercion. -/
def jsToString : JSVal → String
  | .undefined => "undefined"
  | .null => "null"
  | .bool b => if b then "true" else "false"
  | .num n => toString n
  | .str s => s

/-- JS loose equality `==` on the modelled value fragment:
`undefined == null`, numeric coercion between numbers, strings and booleans,
and NaN never equal to anything. -/
def jsLooseEq : JSVal → JSVal → Bool
  | .undefined, .undefined => true
  | .undefined, .null => true
  | .null, .undefined => true
  | .null, .null => true
  | .undefined, _ => false
  | _, .undefined => false
  | .null, _ => false
  | _, .null => false
  | .num a, .num b => a == b
  | .str a, .str b => a == b
  | .num a, .str s =>
    match toNumber (.str s) with
    | some b => a == b
    | none => false
  | .str s, .num b =>
    match toNumber (.str s) with
    | some a => a == b
    | none => false
  | .bool a, .bool b => a == b
  | .bool a, v =>
    match toNumber v with
    | some y => (if a then (1 : Int) else 0) == y
    | none => false
  | v, .bool b =>
    match toNumber v with
    | some x => x == (if b then (1 : Int) else 0)
    | none => false

/-- JS `Number(a) > Number(b)`; any comparison involving NaN is `false`. -/
def jsGt (a b : JSVal) : Bool :=
  match toNumber a, toNumber b with
  | some x, some y => x > y
  | _, _ => false

/-- JS `Number(a) < Number(b)`; any comparison involving NaN is `false`. -/
def jsLt (a b : JSVal) : Bool :=
  match toNumber a, toNumber b with
  | some x, some y => x < y
  | _, _ => false

/-- JS `Number(a) >= Number(b)`; any comparison involving NaN is `false`. -/
def jsGe (a b : JSVal) : Bool :=
  match toNumber a, toNumber b with
  | some x, some y => x ≥ y
  | _, _ => false

/-- JS `Number(a) <= Number(b)`; any comparison involving NaN is `false`. -/
def jsLe (a b : JSVal) : Bool :=
  match toNumber a, toNumber b with
  | some x, some y => x ≤ y
  | _, _ => false

/-- `needle` occurs as a contiguous sublist of the second list. -/
def isSubListOf (needle : List Char) : List Char → Bool
  | [] => needle.isEmpty
  | c :: cs => needle.isPrefixOf (c :: cs) || isSubListOf needle cs

/-- JS `String(a).includes(String(b))` — string-cast substring test. -/
def jsIncludes (a b : JSVal) : Bool :=
  isSubListOf (jsToString b).data (jsToString a).data

/-- A trigger/context object: association list of fields to JS values. -/
abbrev Ctx := List (String × JSVal)

/-- JS property read `data[field]`: a missing field is `undefined`. -/
def jsGet (data : Ctx) (field : String) : JSVal :=
  (data.lookup field).getD .undefined

/-- JS `v || d` where `v` is an optionally-present property
(an absent property reads as `undefined`, which is falsy). -/
def jsOrVal (v : Option JSVal) (d : JSVal) : JSVal :=
  match v with
  | some x => if jsTruthy x then x else d
  | none => d

/-- JS `s || d` for an optionally-present string property
(the empty string is falsy). -/
def jsOrStr (v : Option String) (d : String) : String :=
  match v with
  | some s => if s = "" then d else s
  | none => d

/-- JS `n || d` for an optionally-present numeric property (`0` is falsy). -/
def jsOrInt (v : Option Int) (d : Int) : Int :=
  match v with
  | some n => if n = 0 then d else n
  | none => d

/-- One `{field, operator, value}` condition of a conditional split
(`cond` in `executeConditionalSplit`). -/
structure Condition where
  field : String
  operator : String
  value : JSVal
deriving DecidableEq

/-- One condition group of a conditional-split configuration. -/
structure CondGroup where
  conditions : Option (List Condition) := none
  groupLogic : Option String := none
deriving DecidableEq

/-- The `config` object of a flow node, with the properties the engine
reads; an absent property is `none` (JS `undefined`). -/
structure NodeConfig where
  message : Option JSVal := none
  template : Option JSVal := none
  note : Option JSVal := none
  duration : Option Int := none
  unit : Option String := none
  conditionGroups : Option (List CondGroup) := none
  groupsLogic : Option String := none
deriving DecidableEq

/-- The per-condition `switch (cond.operator)` of `executeConditionalSplit`
(src/unnamed/part_000 lines 550-585); an unknown operator yields `false`. -/
def evalCondition (data : Ctx) (cond : Condition) : Bool :=
  let fieldValue := jsGet data cond.field
  let condValue := cond.value
  if cond.operator == "equals" then jsLooseEq fieldValue condValue
  else if cond.operator == "not_equals" then !(jsLooseEq fieldValue condValue)
  else if cond.operator == "contains" then jsIncludes fieldValue condValue
  else if cond.operator == "greater_than" then jsGt fieldValue condValue
  else if cond.operator == "less_than" then jsLt fieldValue condValue
  else if cond.operator == "greater_or_equal" then jsGe fieldValue condValue
  else if cond.operator == "less_or_equal" then jsLe fieldValue condValue
  else false

/-- One group's result (lines 546-593): `group.conditions || []`,
`group.groupLogic || 'AND'`, then `every` for AND and `some` otherwise. -/
def evalGroup (data : Ctx) (group : CondGroup) : Bool :=
  let conditions := group.conditions.getD []
  let groupLogic := jsOrStr group.groupLogic "AND"
  let conditionResults := conditions.map (evalCondition data)
  if groupLogic == "AND" then conditionResults.all (fun r => r)
  else conditionResults.any (fun r => r)

/-- The per-group results of a conditional-split configuration. -/
def evalSplitGroups (config : NodeConfig) (data : Ctx) : List Bool :=
  (config.conditionGroups.getD []).map (evalGroup data)

/-- The final result of a conditional-split evaluation (lines 596-599):
`config.groupsLogic || 'AND'`, `every` for AND and `some` otherwise. -/
def evalSplit (config : NodeConfig) (data : Ctx) : Bool :=
  let groupsLogic := jsOrStr config.groupsLogic "AND"
  let groupResults := evalSplitGroups config data
  if groupsLogic == "AND" then groupResults.all (fun r => r)
  else groupResults.any (fun r => r)

/-! ## Flow graphs (flow.schema.ts) -/

/-- An edge of a flow graph (`FlowEdge` in flow.schema.ts). -/
structure FlowEdge where
  id : String
  source : String
  target : String
  sourceHandle : Option String := none
deriving DecidableEq

/-- A node of a flow graph (`FlowNode` in flow.schema.ts).  `type` is the
string value of the `NodeType` enum; the engine's dispatch has an explicit
default case for unknown strings. -/
structure FlowNode where
  id : String
  type : String
  config : Option NodeConfig := none
deriving DecidableEq

/-- A flow definition — the engine only reads `nodes` and `edges`. -/
structure Flow where
  nodes : List FlowNode
  edges : List FlowEdge
deriving DecidableEq

/-! ## Execution documents (execution.schema.ts) -/

/-- Result payloads stored on a `NodeExecution` by the several executors. -/
inductive NodeResult where
  | trigger (triggerData : Ctx)
  | sendMessage (toAddr : JSVal) (message : String) (messageId : String)
  | orderNote (orderId : JSVal) (noteId : String) (note : JSVal)
  | customerNote (customerId : JSVal) (noteId : String) (note : JSVal)
  | timeDelay (duration : Int) (unit : String) (delayMs : Int)
  | condSplit (result : Bool) (groupResults : List Bool)
  | endArrival (arrivalCount : Nat) (expectedBranches : Nat)
deriving DecidableEq

/-- A `NodeExecution` entry (`ExecutedNode` in execution.schema.ts).
`startTime`/`endTime` are omitted: no claim concerns them. -/
structure NodeExec where
  nodeId : String
  nodeType : String
  status : String
  idempotencyKey : String
  retryCount : Nat := 0
  arrivalCount : Nat := 0
  result : Option NodeResult := none
  error : Option String := none
deriving DecidableEq

/-- A `Branch` entry of the execution document.  The engine pushes plain
node-id strings onto `path`. -/
structure BranchRec where
  branchId : String
  status : String
  currentNodeId : String
  path : List String
deriving DecidableEq

/-- The `resumeData` saved by a TIME_DELAY node. -/
structure ResumeData where
  nextNodeIds : List String
  context : Ctx
  branchId : String
deriving DecidableEq

/-- The per-run execution document (`Execution` in execution.schema.ts). -/
structure ExecDoc where
  id : String
  flowId : String
  status : String
  triggerData : Ctx
  branches : List BranchRec
  executedNodes : List NodeExec
  resumeAt : Option Int := none
  resumeData : Option ResumeData := none
deriving DecidableEq

/-- A job enqueued on the `flow-delays` queue. -/
structure DelayJob where
  executionId : String
  nextNodeIds : List String
  context : Ctx
  branchId : String
  delay : Int
deriving DecidableEq

/-- The mock WhatsApp send result (`to` in the source is `toAddr` here: `to` is reserved in Lean). -/
structure MsgResult where
  messageId : String
  toAddr : JSVal
  status : String
deriving DecidableEq

/-- The mock order-note result. -/
structure OrderNoteResult where
  noteId : String
  orderId : JSVal
deriving DecidableEq

/-- The mock customer-note result. -/
structure CustomerNoteResult where
  noteId : String
  customerId : JSVal
deriving DecidableEq

/-- The whole mutable world of the service: the execution document, the three
in-memory idempotency maps, the delay queue, plus observation logs — the keys
for which an underlying side effect was actually performed (`…Effects`) and
the `setTimeout` backoff sleeps (`waits`).  `now` is the logical wall clock.
-/
structure EngineState where
  exec : ExecDoc
  sentMessages : List (String × MsgResult) := []
  orderNotes : List (String × OrderNoteResult) := []
  customerNotes : List (String × CustomerNoteResult) := []
  sendEffects : List String := []
  orderEffects : List String := []
  customerEffects : List String := []
  delayJobs : List DelayJob := []
  waits : List Int := []
  now : Int := 0
deriving DecidableEq

/-- Update the first element satisfying `p` — this models MongoDB's
positional `$` operator, which updates the first matching array element. -/
def updateFirst {α : Type} (p : α → Bool) (f : α → α) : List α → List α
  | [] => []
  | x :: xs => if p x then f x :: xs else x :: updateFirst p f xs

/-! ## The effect monad: state plus thrown JS errors.
A thrown error keeps the state already persisted before the throw. -/

def EM (α : Type) : Type := EngineState → Except String α × EngineState

instance : Monad EM where
  pure a := fun st => (Except.ok a, st)
  bind x f := fun st =>
    match x st with
    | (Except.ok a, st1) => f a st1
    | (Except.error e, st1) => (Except.error e, st1)

def throwEM {α : Type} (e : String) : EM α := fun st => (Except.error e, st)

def getEM : EM EngineState := fun st => (Except.ok st, st)

def modifyEM (f : EngineState → EngineState) : EM Unit := fun st => (Except.ok (), f st)

/-- `try … catch (error) { … }`. -/
def tryCatchEM {α : Type} (x : EM α) (handle : String → EM α) : EM α := fun st =>
  match x st with
  | (Except.ok a, st1) => (Except.ok a, st1)
  | (Except.error e, st1) => handle e st1

@[simp] theorem pure_em_apply {α : Type} (a : α) (st : EngineState) :
    (pure a : EM α) st = (Except.ok a, st) := rfl

@[simp] theorem bind_em_apply {α β : Type} (x : EM α) (f : α → EM β) (st : EngineState) :
    (x >>= f) st =
      match x st with
      | (Except.ok a, st1) => f a st1
      | (Except.error e, st1) => (Except.error e, st1) := rfl

@[simp] theorem throwEM_apply {α : Type} (e : String) (st : EngineState) :
    (throwEM (α := α) e) st = (Except.error e, st) := rfl

@[simp] theorem getEM_apply (st : EngineState) : getEM st = (Except.ok st, st) := rfl

@[simp] theorem modifyEM_apply (f : EngineState → EngineState) (st : EngineState) :
    modifyEM f st = (Except.ok (), f st) := rfl

/-! ## State-manipulation helpers (the MongoDB `updateOne` calls) -/

/-- The idempotency key computed at part_000 lines 181 and 220. -/
def idemKey (executionId nodeId : String) : String := executionId ++ "_" ++ nodeId

/-- A freshly pushed `NodeExecution` entry. -/
def newEntry (node : FlowNode) (key : String) : NodeExec :=
  { nodeId := node.id, nodeType := node.type, status := "running", idempotencyKey := key }

/-- `$push` of a new `NodeExecution`. -/
def pushEntry (node : FlowNode) (key : String) (st : EngineState) : EngineState :=
  { st with exec := { st.exec with executedNodes := st.exec.executedNodes ++ [newEntry node key] } }

/-- `executedNodes.find(n => n.nodeId === nodeId)`. -/
def findEntry (st : EngineState) (nodeId : String) : Option NodeExec :=
  st.exec.executedNodes.find? (fun n => n.nodeId == nodeId)

/-- Positional update `{'executedNodes.$': …}` addressed by `nodeId`. -/
def updateEntry (nodeId : String) (f : NodeExec → NodeExec) (st : EngineState) : EngineState :=
  { st with exec :=
    { st.exec with executedNodes := updateFirst (fun n => n.nodeId == nodeId) f st.exec.executedNodes } }

/-- Positional update of a branch addressed by `branchId`. -/
def updateBranch (branchId : String) (f : BranchRec → BranchRec) (st : EngineState) : EngineState :=
  { st with exec :=
    { st.exec with branches := updateFirst (fun b => b.branchId == branchId) f st.exec.branches } }

/-- Set the run-level `status` field. -/
def setRunStatus (s : String) (st : EngineState) : EngineState :=
  { st with exec := { st.exec with status := s } }

/-- Record a `setTimeout` backoff sleep. -/
def addWait (ms : Int) (st : EngineState) : EngineState :=
  { st with waits := st.waits ++ [ms] }

/-- `$push { branches: { $each: … } }`. -/
def pushBranches (brs : List BranchRec) (st : EngineState) : EngineState :=
  { st with exec := { st.exec with branches := st.exec.branches ++ brs } }

/-! ## Mock action adapters with idempotency (part_000 lines 678-749).
The stored maps are association lists; the `…Effects` log records each key
for which the simulated external call was actually performed.  The simulated
API `setTimeout` sleeps carry no observable state and are omitted. -/

/-- `mockSendWhatsAppMessage`. -/
def mockSendWhatsAppMessage (key : String) (toAddr : JSVal) (message : String) (template : JSVal) :
    EM MsgResult := fun st =>
  match st.sentMessages.lookup key with
  | some r => (Except.ok r, st)
  | none =>
    let r : MsgResult := { messageId := "msg_" ++ toString st.now, toAddr := toAddr, status := "sent" }
    (Except.ok r,
      { st with sentMessages := (key, r) :: st.sentMessages, sendEffects := st.sendEffects ++ [key] })

/-- `mockAddOrderNote`; the payload timestamp is not stored and is omitted. -/
def mockAddOrderNote (key : String) (orderId : JSVal) (note : JSVal) :
    EM OrderNoteResult := fun st =>
  match st.orderNotes.lookup key with
  | some r => (Except.ok r, st)
  | none =>
    let r : OrderNoteResult := { noteId := "note_" ++ toString st.now, orderId := orderId }
    (Except.ok r,
      { st with orderNotes := (key, r) :: st.orderNotes, orderEffects := st.orderEffects ++ [key] })

/-- `mockAddCustomerNote`. -/
def mockAddCustomerNote (key : String) (customerId : JSVal) (note : JSVal) :
    EM CustomerNoteResult := fun st =>
  match st.customerNotes.lookup key with
  | some r => (Except.ok r, st)
  | none =>
    let r : CustomerNoteResult := { noteId := "note_" ++ toString st.now, customerId := customerId }
    (Except.ok r,
      { st with customerNotes := (key, r) :: st.customerNotes,
                customerEffects := st.customerEffects ++ [key] })

/-! ## Template variable replacement (executeSendMessage, lines 374-381).
`message.match(/\{([^}]+)\}/g)` is modelled by `findMatches`, and
`String.prototype.replace` with a string pattern by `jsReplaceFirst`,
including the JS special replacement patterns that are active for string
patterns (`$$`, `$&`, the dollar-backquote prefix form and the
dollar-quote suffix form). -/

/-- The opening brace character. -/
def lbrace : Char := Char.ofNat 123

/-- The closing brace character. -/
def rbrace : Char := Char.ofNat 125

/-- The dollar character. -/
def dollarCh : Char := Char.ofNat 36

/-- The ampersand character. -/
def ampCh : Char := Char.ofNat 38

/-- The backquote character. -/
def backqCh : Char := Char.ofNat 96

/-- The single-quote character. -/
def squoteCh : Char := Char.ofNat 39

/-- All matches of `/\{([^}]+)\}/g`, in order, braces included, as a
single left-to-right scan.  The first argument is the scan state: `none`
outside a candidate match, `some acc` after an opening brace with `acc` the
non-closing-brace run read so far (`[^}]` also accepts an opening brace).
A closing brace after a nonempty run emits the match and resumes after it;
a closing brace after an empty run emits nothing (the regex requires at
least one character); a candidate still open at the end emits nothing. -/
def scanMatches : Option (List Char) → List Char → List (List Char)
  | none, [] => []
  | none, c :: cs => if c = lbrace then scanMatches (some []) cs else scanMatches none cs
  | some acc, [] => []
  | some acc, c :: cs =>
    if c = rbrace then
      if acc.isEmpty then scanMatches none cs
      else (lbrace :: (acc ++ [rbrace])) :: scanMatches none cs
    else scanMatches (some (acc ++ [c])) cs

/-- `message.match(/\{([^}]+)\}/g) || []`. -/
def findMatches (l : List Char) : List (List Char) := scanMatches none l

/-- Expansion of a replacement string with the JS special replacement
patterns that apply to string patterns: `$$` is a literal dollar, `$&` the
matched text, dollar-backquote the text before the match and dollar-quote
the text after it; any other dollar sequence is literal. -/
def expandRepl (pre matched post : List Char) : List Char → List Char
  | [] => []
  | c :: cs =>
    if c = dollarCh then
      match cs with
      | [] => [dollarCh]
      | d :: ds =>
        if d = dollarCh then dollarCh :: expandRepl pre matched post ds
        else if d = ampCh then matched ++ expandRepl pre matched post ds
        else if d = backqCh then pre ++ expandRepl pre matched post ds
        else if d = squoteCh then post ++ expandRepl pre matched post ds
        else c :: expandRepl pre matched post (d :: ds)
    else c :: expandRepl pre matched post cs

/-- Leftmost replacement scan: `pre` is the already-scanned text reversed. -/
def replaceFirstAux (pat repl : List Char) : List Char → List Char → List Char
  | pre, [] => pre.reverse
  | pre, c :: cs =>
    if pat.isPrefixOf (c :: cs) then
      pre.reverse ++ expandRepl pre.reverse pat ((c :: cs).drop pat.length) repl
        ++ (c :: cs).drop pat.length
    else replaceFirstAux pat repl (c :: pre) cs

/-- JS `s.replace(pat, repl)` with a string pattern: replaces the first
occurrence only, expanding the special replacement patterns. -/
def jsReplaceFirst (s pat repl : List Char) : List Char :=
  if pat.isEmpty then expandRepl [] [] s repl ++ s
  else replaceFirstAux pat repl [] s

/-- The replacement text for one match: `match.slice(1, -1)` names the
variable, and `data[varName] || "[varName]"` (string-cast) is inserted. -/
def replFor (data : Ctx) (m : List Char) : List Char :=
  let varName := String.mk ((m.drop 1).dropLast)
  (jsToString (jsOrVal (data.lookup varName) (.str ("[" ++ varName ++ "]")))).data

/-- The template-variable replacement loop of `executeSendMessage`
(lines 374-381): collect all matches up front, then successively replace
the first occurrence of each match with its value. -/
def processMessage (message : String) (data : Ctx) : String :=
  String.mk
    ((findMatches message.data).foldl (fun acc m => jsReplaceFirst acc m (replFor data m))
      message.data)

/-! ## Node executors (part_000 lines 353-529) -/

/-- `executeTrigger` (lines 353-364). -/
def executeTrigger (node : FlowNode) (data : Ctx) (key : String) : EM NodeResult :=
  pure (.trigger data)

/-- `executeSendMessage` (lines 366-399).  `config.message || 'Default
message'` may select a truthy non-string, on which `message.match` throws. -/
def executeSendMessage (node : FlowNode) (data : Ctx) (key : String) : EM NodeResult :=
  let config := node.config.getD {}
  match jsOrVal config.message (.str "Default message") with
  | .str message =>
    let processedMessage := processMessage message data
    mockSendWhatsAppMessage key (jsOrVal (data.lookup "customer_phone") (.str "+1234567890"))
        processedMessage (jsOrVal config.template (.str "default")) >>= fun resp =>
    pure (.sendMessage resp.toAddr processedMessage resp.messageId)
  | _ => throwEM "TypeError: message.match is not a function"

/-- `executeAddOrderNote` (lines 401-426). -/
def executeAddOrderNote (node : FlowNode) (data : Ctx) (key : String) : EM NodeResult :=
  let config := node.config.getD {}
  let note := jsOrVal config.note (.str "Order note")
  let orderId := jsOrVal (data.lookup "order_id") (.str "unknown")
  mockAddOrderNote key orderId note >>= fun resp =>
  pure (.orderNote orderId resp.noteId note)

/-- `executeAddCustomerNote` (lines 428-453). -/
def executeAddCustomerNote (node : FlowNode) (data : Ctx) (key : String) : EM NodeResult :=
  let config := node.config.getD {}
  let note := jsOrVal config.note (.str "Customer note")
  let customerId := jsOrVal (data.lookup "customer_id") (.str "unknown")
  mockAddCustomerNote key customerId note >>= fun resp =>
  pure (.customerNote customerId resp.noteId note)

/-- The unit conversion of `executeTimeDelay` (lines 466-481); an unknown
unit leaves `delayMs = 0`. -/
def delayMsOf (duration : Int) (unit : String) : Int :=
  if unit == "seconds" then duration * 1000
  else if unit == "minutes" then duration * 60 * 1000
  else if unit == "hours" then duration * 60 * 60 * 1000
  else if unit == "days" then duration * 24 * 60 * 60 * 1000
  else 0

/-- `executeTimeDelay` (lines 455-529): saves the delay state (run status
`delayed`, `resumeAt`, `resumeData`), marks the node's entry completed and
enqueues the resume job.  The status write is unconditional. -/
def executeTimeDelay (node : FlowNode) (flow : Flow) (executionId : String) (data : Ctx)
    (branchId : String) : EM Unit := fun st =>
  let config := node.config.getD {}
  let duration := jsOrInt config.duration 0
  let unit := jsOrStr config.unit "minutes"
  let delayMs := delayMsOf duration unit
  let nextNodeIds := (flow.edges.filter (fun e => e.source == node.id)).map (fun e => e.target)
  let st1 := { st with exec :=
    { st.exec with
        status := "delayed"
        resumeAt := some (st.now + delayMs)
        resumeData := some { nextNodeIds := nextNodeIds, context := data, branchId := branchId } } }
  let st2 := updateEntry node.id
    (fun n => { n with status := "completed", result := some (.timeDelay duration unit delayMs) }) st1
  (Except.ok (),
    { st2 with delayJobs := st2.delayJobs ++
        [{ executionId := executionId, nextNodeIds := nextNodeIds, context := data,
           branchId := branchId, delay := delayMs }] })

/-- `executeEnd` (lines 634-675): count the incoming edges, atomically
increment this END entry's `arrivalCount` (positional update — absent entry
means no update and a null read, whence `|| 1`), and mark the run completed
when the arrival count reaches the expected number. -/
def executeEnd (node : FlowNode) (flow : Flow) (executionId : String) (data : Ctx) :
    EM NodeResult := fun st =>
  let expectedBranches := (flow.edges.filter (fun e => e.target == node.id)).length
  match findEntry st node.id with
  | some _ =>
    let st1 := updateEntry node.id (fun n => { n with arrivalCount := n.arrivalCount + 1 }) st
    let arrivalCount :=
      match findEntry st1 node.id with
      | some e => if e.arrivalCount = 0 then 1 else e.arrivalCount
      | none => 1
    let st2 := if arrivalCount ≥ expectedBranches then setRunStatus "completed" st1 else st1
    (Except.ok (.endArrival arrivalCount expectedBranches), st2)
  | none =>
    let st2 := if 1 ≥ expectedBranches then setRunStatus "completed" st else st
    (Except.ok (.endArrival 1 expectedBranches), st2)

/-- `executeConditionalSplit` (lines 531-632): evaluate, record the entry as
completed with `{result, groupResults}`, then follow the single outgoing
edge whose `sourceHandle` strictly equals the result string, recursing in
the same branch; with no matching edge, only a log is written. -/
def executeConditionalSplit (recur : FlowNode → String → EM Unit) (node : FlowNode) (flow : Flow)
    (data : Ctx) (branchId : String) : EM NodeResult :=
  let config := node.config.getD {}
  let finalResult := evalSplit config data
  let groupResults := evalSplitGroups config data
  modifyEM (updateEntry node.id
    (fun n => { n with status := "completed", result := some (.condSplit finalResult groupResults) }))
    >>= fun _ =>
  let outgoingEdges := flow.edges.filter (fun e => e.source == node.id)
  match outgoingEdges.find? (fun e =>
      e.sourceHandle == some (if finalResult then "true" else "false")) with
  | some edge =>
    match flow.nodes.find? (fun n => n.id == edge.target) with
    | some nextNode => recur nextNode branchId >>= fun _ => pure (.condSplit finalResult groupResults)
    | none => pure (.condSplit finalResult groupResults)
  | none => pure (.condSplit finalResult groupResults)

/-! ## Traversal engine (executeNode, lines 152-351) -/

/-- The child branches pushed at a fan-out point (lines 287-292): hierarchical
ids `branchId_index`, and `path` is the array `[node.id]` — literally the
fan-out node's id, not an extension of the parent branch's path. -/
def childBranches (branchId : String) (node : FlowNode) (edges : List FlowEdge) :
    List BranchRec :=
  edges.enum.map (fun ie =>
    { branchId := branchId ++ "_" ++ toString ie.1, status := "running",
      currentNodeId := ie.2.target, path := [node.id] })

/-- The per-edge continuations of lines 300-310, run left to right; an edge
whose target id resolves to no node is a resolved no-op. -/
def runChildren (recur : FlowNode → String → EM Unit) (flow : Flow) (branchId : String)
    (multi : Bool) : Nat → List FlowEdge → EM Unit
  | _, [] => pure ()
  | i, e :: rest =>
    (match flow.nodes.find? (fun n => n.id == e.target) with
     | some nextNode => recur nextNode (if multi then branchId ++ "_" ++ toString i else branchId)
     | none => pure ()) >>= fun _ =>
    runChildren recur flow branchId multi (i + 1) rest

/-- The fan-out step (lines 280-310): with more than one outgoing edge the
child branches are pushed to the document before any child runs; with one
edge traversal continues in the same branch. -/
def fanOut (recur : FlowNode → String → EM Unit) (node : FlowNode) (flow : Flow)
    (branchId : String) : EM Unit :=
  let nextEdges := flow.edges.filter (fun e => e.source == node.id)
  (if nextEdges.length > 1 then modifyEM (pushBranches (childBranches branchId node nextEdges))
   else pure ()) >>= fun _ =>
  runChildren recur flow branchId (decide (nextEdges.length > 1)) 0 nextEdges

/-- Mark completed with the result payload (lines 269-278) and fan out. -/
def completeThen (recur : FlowNode → String → EM Unit) (node : FlowNode) (flow : Flow)
    (branchId : String) (r : NodeResult) : EM Unit :=
  modifyEM (updateEntry node.id (fun n => { n with status := "completed", result := some r }))
    >>= fun _ =>
  fanOut recur node flow branchId

/-- One attempt at the `try` block of `executeNode` (lines 242-310): the
`switch (node.type)` dispatch; TIME_DELAY and CONDITIONAL_SPLIT return
early, every other known type completes and fans out, and an unknown type
throws. -/
def runAttempt (recur : FlowNode → String → EM Unit) (node : FlowNode) (flow : Flow)
    (executionId : String) (data : Ctx) (branchId : String) : EM Unit :=
  if node.type == "TRIGGER" then
    executeTrigger node data (idemKey executionId node.id) >>= completeThen recur node flow branchId
  else if node.type == "SEND_MESSAGE" then
    executeSendMessage node data (idemKey executionId node.id) >>= completeThen recur node flow branchId
  else if node.type == "ADD_ORDER_NOTE" then
    executeAddOrderNote node data (idemKey executionId node.id) >>= completeThen recur node flow branchId
  else if node.type == "ADD_CUSTOMER_NOTE" then
    executeAddCustomerNote node data (idemKey executionId node.id) >>= completeThen recur node flow branchId
  else if node.type == "TIME_DELAY" then
    executeTimeDelay node flow executionId data branchId
  else if node.type == "CONDITIONAL_SPLIT" then
    executeConditionalSplit recur node flow data branchId >>= fun _ => pure ()
  else throwEM ("Unknown node type: " ++ node.type)

/-- The `catch` handler of `executeNode` (lines 312-350), parameterized by
the re-execution continuation: read the current retryCount; below 3 wait
`1000 * (retryCount+1)` ms, increment it and re-execute the same node;
otherwise mark the entry failed with the error message and rethrow. -/
def catchHandler (nodeId : String) (retrySelf : EM Unit) (e : String) : EM Unit :=
  getEM >>= fun st =>
  let retryCount := ((findEntry st nodeId).map (fun n => n.retryCount)).getD 0
  if retryCount < 3 then
    modifyEM (addWait (1000 * (retryCount + 1))) >>= fun _ =>
    modifyEM (updateEntry nodeId (fun n => { n with retryCount := n.retryCount + 1 }))
      >>= fun _ =>
    retrySelf
  else
    modifyEM (updateEntry nodeId (fun n => { n with status := "failed", error := some e }))
      >>= fun _ =>
    throwEM e

/-- `executeNode` (lines 152-351), by fuel: the END special case (guarded
insert, arrival counting, completion), the completed-entry skip, the guarded
running insert, and the `try`/`catch` around one dispatch attempt. -/
def executeNode : Nat → FlowNode → Flow → String → Ctx → String → EM Unit
  | 0, _, _, _, _, _ => throwEM "out of fuel"
  | fuel + 1, node, flow, executionId, data, branchId =>
    if node.type == "END" then
      modifyEM (fun st =>
        if st.exec.executedNodes.any (fun n => n.nodeId == node.id) then st
        else pushEntry node (idemKey executionId node.id) st) >>= fun _ =>
      executeEnd node flow executionId data >>= fun r =>
      modifyEM (updateEntry node.id (fun n => { n with status := "completed", result := some r }))
    else
      getEM >>= fun st0 =>
      match findEntry st0 node.id with
      | some en =>
        if en.status == "completed" then pure ()
        else
          tryCatchEM
            (runAttempt (fun nd b => executeNode fuel nd flow executionId data b)
              node flow executionId data branchId)
            (catchHandler node.id (executeNode fuel node flow executionId data branchId))
      | none =>
        modifyEM (pushEntry node (idemKey executionId node.id)) >>= fun _ =>
        tryCatchEM
          (runAttempt (fun nd b => executeNode fuel nd flow executionId data b)
            node flow executionId data branchId)
          (catchHandler node.id (executeNode fuel node flow executionId data branchId))

/-- The execution document created by `executeFlow` (lines 27-41). -/
def initExec (executionId flowId : String) (triggerData : Ctx) : ExecDoc :=
  { id := executionId, flowId := flowId, status := "running", triggerData := triggerData,
    branches := [{ branchId := "root", status := "running", currentNodeId := "trigger", path := [] }],
    executedNodes := [] }

/-- A fresh engine world holding a newly created execution document. -/
def initState (executionId flowId : String) (triggerData : Ctx) : EngineState :=
  { exec := initExec executionId flowId triggerData }

/-- `executeFlow` (lines 23-72): create the execution document, find the
trigger node and execute from it; any escaped error marks the run failed. -/
def executeFlow (fuel : Nat) (flow : Flow) (executionId flowId : String) (triggerData : Ctx) :
    EM Unit :=
  modifyEM (fun st => { st with exec := initExec executionId flowId triggerData }) >>= fun _ =>
  tryCatchEM
    (match flow.nodes.find? (fun n => n.type == "TRIGGER") with
     | some triggerNode => executeNode fuel triggerNode flow executionId triggerData "root"
     | none => throwEM "No trigger node found")
    (fun _ => modifyEM (setRunStatus "failed"))

/-- Run a whole flow from a fresh world and keep the final world. -/
def runFlow (fuel : Nat) (flow : Flow) (executionId flowId : String) (triggerData : Ctx) :
    EngineState :=
  (executeFlow fuel flow executionId flowId triggerData (initState executionId flowId triggerData)).2

/-- `retryExecution` (lines 84-150).  The model holds the one execution
document `st.exec`, so the executions collection is `{st.exec.id ↦ st.exec}`;
`flows` is the separate flows collection.  Line 94 of the source looks the
flow up **in the executions collection** (`this.executionModel.findById(
execution.flowId)`), which in this model succeeds only if
`flowId = st.exec.id`; otherwise `throw new Error('Flow not found')`. -/
def retryExecution (fuel : Nat) (flows : List (String × Flow)) (executionId : String) :
    EM Unit := fun st =>
  if executionId == st.exec.id then
    let execution := st.exec
    if execution.flowId == execution.id then
      match execution.executedNodes.find? (fun n => n.status == "failed") with
      | none => (Except.error "No failed node found to retry", st)
      | some failedNode =>
        let st1 := updateEntry failedNode.nodeId
          (fun n => { n with status := "running", error := none, retryCount := 0 }) st
        let st2 := setRunStatus "running" st1
        match flows.lookup execution.flowId with
        | none => (Except.error "TypeError: flowDoc is null", st2)
        | some flowDoc =>
          match flowDoc.nodes.find? (fun n => n.id == failedNode.nodeId) with
          | none => (Except.error ("Node " ++ failedNode.nodeId ++ " not found in flow"), st2)
          | some node =>
            (tryCatchEM (executeNode fuel node flowDoc executionId execution.triggerData "root")
              (fun _ => modifyEM (setRunStatus "failed"))) st2
    else (Except.error "Flow not found", st)
  else (Except.error "Execution not found", st)

/-- The per-id continuations of `handleDelayResume` (delay.processor.ts
lines 94-116), run left to right. -/
def runResume (fuel : Nat) (flow : Flow) (executionId : String) (context : Ctx)
    (branchId : String) (multi : Bool) : Nat → List String → EM Unit
  | _, [] => pure ()
  | i, nid :: rest =>
    (match flow.nodes.find? (fun n => n.id == nid) with
     | some node =>
       executeNode fuel node flow executionId context
         (if multi then branchId ++ "_" ++ toString i else branchId)
     | none => pure ()) >>= fun _ =>
    runResume fuel flow executionId context branchId multi (i + 1) rest

/-- `handleDelayResume` (delay.processor.ts lines 22-118), happy path: mark
the branch running, clear the run's delayed status when no branch is still
delayed, and continue into the saved next nodes — fanning out into child
branches that inherit the parent branch's path when there are several. -/
def handleDelayResume (fuel : Nat) (flow : Flow) (executionId : String)
    (nextNodeIds : List String) (context : Ctx) (branchId : String) : EM Unit :=
  getEM >>= fun st =>
  modifyEM (updateBranch branchId (fun b => { b with status := "running" })) >>= fun _ =>
  getEM >>= fun st1 =>
  (if st1.exec.branches.any (fun b => b.status == "delayed") then pure ()
   else modifyEM (fun s => { s with exec := { s.exec with status := "running", resumeAt := none } }))
    >>= fun _ =>
  if nextNodeIds.length > 1 then
    let parentPath := ((st.exec.branches.find? (fun b => b.branchId == branchId)).map
      (fun b => b.path)).getD []
    let newBranches := nextNodeIds.enum.map (fun inid =>
      ({ branchId := branchId ++ "_" ++ toString inid.1, status := "running",
         currentNodeId := inid.2, path := parentPath } : BranchRec))
    modifyEM (updateBranch branchId (fun b => { b with status := "completed" })) >>= fun _ =>
    modifyEM (pushBranches newBranches) >>= fun _ =>
    runResume fuel flow executionId context branchId true 0 nextNodeIds
  else
    runResume fuel flow executionId context branchId false 0 nextNodeIds

/-! ## Helper lemmas -/

theorem find?_updateFirst {α : Type} (p : α → Bool) (f : α → α) (l : List α)
    (h : ∀ x, p x = true → p (f x) = true) :
    (updateFirst p f l).find? p = (l.find? p).map f := by
  induction l with
  | nil => simp [updateFirst]
  | cons x xs ih =>
    by_cases hx : p x = true
    · rw [updateFirst]
      simp only [hx, if_true]
      rw [List.find?_cons_of_pos _ (h x hx), List.find?_cons_of_pos _ hx]
      simp
    · rw [updateFirst]
      simp only [hx, if_false, Bool.false_eq_true]
      rw [List.find?_cons_of_neg _ (by simpa using hx), List.find?_cons_of_neg _ (by simpa using hx)]
      exact ih

theorem findEntry_updateEntry (st : EngineState) (nodeId : String) (f : NodeExec → NodeExec)
    (h : ∀ n, (f n).nodeId = n.nodeId) :
    findEntry (updateEntry nodeId f st) nodeId = (findEntry st nodeId).map f := by
  unfold findEntry updateEntry
  exact find?_updateFirst _ f _ (fun x hx => by simpa [h x] using hx)

@[simp] theorem updateEntry_status (nodeId : String) (f : NodeExec → NodeExec) (st : EngineState) :
    (updateEntry nodeId f st).exec.status = st.exec.status := rfl

@[simp] theorem updateEntry_branches (nodeId : String) (f : NodeExec → NodeExec) (st : EngineState) :
    (updateEntry nodeId f st).exec.branches = st.exec.branches := rfl

@[simp] theorem setRunStatus_executedNodes (s : String) (st : EngineState) :
    (setRunStatus s st).exec.executedNodes = st.exec.executedNodes := rfl

@[simp] theorem setRunStatus_status (s : String) (st : EngineState) :
    (setRunStatus s st).exec.status = s := rfl

theorem mem_of_lookup {α β : Type} [BEq α] [LawfulBEq α] {l : List (α × β)} {k : α} {v : β}
    (h : l.lookup k = some v) : (k, v) ∈ l := by
  induction l with
  | nil => simp [List.lookup] at h
  | cons p ps ih =>
    obtain ⟨a, b⟩ := p
    rw [List.lookup] at h
    by_cases hk : k == a
    · simp only [hk] at h
      cases h
      have : k = a := by simpa using hk
      subst this
      exact List.mem_cons_self _ _
    · simp only [Bool.not_eq_true] at hk
      simp only [hk] at h
      exact List.mem_cons_of_mem _ (ih h)

/-! ## C1 — adapter idempotency -/

/-- C1: for every idempotency key, invoking the same action adapter twice
with that key returns on the second call exactly the result produced (and
cached) by the first call, the second call performs no underlying side
effect, and the two calls together perform the side effect at most once —
for each of send-message, add-order-note and add-customer-note. -/
theorem c1_adapter_idempotent :
    ∀ (st : EngineState) (k : String) (a1 a2 : JSVal) (m1 m2 : String)
      (t1 t2 o1 o2 u1 u2 v1 v2 w1 w2 : JSVal),
      ((mockSendWhatsAppMessage k a2 m2 t2 (mockSendWhatsAppMessage k a1 m1 t1 st).2).1
          = (mockSendWhatsAppMessage k a1 m1 t1 st).1
        ∧ (mockSendWhatsAppMessage k a2 m2 t2 (mockSendWhatsAppMessage k a1 m1 t1 st).2).2.sendEffects
          = (mockSendWhatsAppMessage k a1 m1 t1 st).2.sendEffects
        ∧ (mockSendWhatsAppMessage k a1 m1 t1 st).2.sendEffects.count k
          ≤ st.sendEffects.count k + 1)
    ∧ ((mockAddOrderNote k o2 u2 (mockAddOrderNote k o1 u1 st).2).1
          = (mockAddOrderNote k o1 u1 st).1
        ∧ (mockAddOrderNote k o2 u2 (mockAddOrderNote k o1 u1 st).2).2.orderEffects
          = (mockAddOrderNote k o1 u1 st).2.orderEffects
        ∧ (mockAddOrderNote k o1 u1 st).2.orderEffects.count k
          ≤ st.orderEffects.count k + 1)
    ∧ ((mockAddCustomerNote k v2 w2 (mockAddCustomerNote k v1 w1 st).2).1
          = (mockAddCustomerNote k v1 w1 st).1
        ∧ (mockAddCustomerNote k v2 w2 (mockAddCustomerNote k v1 w1 st).2).2.customerEffects
          = (mockAddCustomerNote k v1 w1 st).2.customerEffects
        ∧ (mockAddCustomerNote k v1 w1 st).2.customerEffects.count k
          ≤ st.customerEffects.count k + 1) := by
  intro st k a1 a2 m1 m2 t1 t2 o1 o2 u1 u2 v1 v2 w1 w2
  refine ⟨?_, ?_, ?_⟩
  · unfold mockSendWhatsAppMessage
    cases h : st.sentMessages.lookup k <;> simp [h, List.lookup]
  · unfold mockAddOrderNote
    cases h : st.orderNotes.lookup k <;> simp [h, List.lookup]
  · unfold mockAddCustomerNote
    cases h : st.customerNotes.lookup k <;> simp [h, List.lookup]

/-! ## C4 — the condition evaluator -/

/-- C4: each group's result is AND → all conditions true / OR → any true
(default logic AND), the outer logic combines group results the same way,
and the operator table is: `equals` = loose equality, `not_equals` its
negation, `contains` = string-cast substring test, and the four numeric-cast
comparisons, which are false whenever either side coerces to NaN. -/
theorem c4_condition_evaluator :
    (∀ (data : Ctx) (group : CondGroup), jsOrStr group.groupLogic "AND" = "AND" →
      (evalGroup data group = true ↔ ∀ c ∈ group.conditions.getD [], evalCondition data c = true))
  ∧ (∀ (data : Ctx) (group : CondGroup), jsOrStr group.groupLogic "AND" ≠ "AND" →
      (evalGroup data group = true ↔ ∃ c ∈ group.conditions.getD [], evalCondition data c = true))
  ∧ (∀ (config : NodeConfig) (data : Ctx), jsOrStr config.groupsLogic "AND" = "AND" →
      (evalSplit config data = true ↔ ∀ g ∈ config.conditionGroups.getD [], evalGroup data g = true))
  ∧ (∀ (config : NodeConfig) (data : Ctx), jsOrStr config.groupsLogic "AND" ≠ "AND" →
      (evalSplit config data = true ↔ ∃ g ∈ config.conditionGroups.getD [], evalGroup data g = true))
  ∧ (∀ (data : Ctx) (c : Condition), c.operator = "equals" →
      evalCondition data c = jsLooseEq (jsGet data c.field) c.value)
  ∧ (∀ (data : Ctx) (c : Condition), c.operator = "not_equals" →
      evalCondition data c = !jsLooseEq (jsGet data c.field) c.value)
  ∧ (∀ (data : Ctx) (c : Condition), c.operator = "contains" →
      (evalCondition data c = true ↔
        isSubListOf (jsToString c.value).data (jsToString (jsGet data c.field)).data = true))
  ∧ (∀ (data : Ctx) (c : Condition), c.operator = "greater_than" →
      (evalCondition data c = true ↔
        ∃ x y, toNumber (jsGet data c.field) = some x ∧ toNumber c.value = some y ∧ x > y))
  ∧ (∀ (data : Ctx) (c : Condition), c.operator = "less_than" →
      (evalCondition data c = true ↔
        ∃ x y, toNumber (jsGet data c.field) = some x ∧ toNumber c.value = some y ∧ x < y))
  ∧ (∀ (data : Ctx) (c : Condition), c.operator = "greater_or_equal" →
      (evalCondition data c = true ↔
        ∃ x y, toNumber (jsGet data c.field) = some x ∧ toNumber c.value = some y ∧ x ≥ y))
  ∧ (∀ (data : Ctx) (c : Condition), c.operator = "less_or_equal" →
      (evalCondition data c = true ↔
        ∃ x y, toNumber (jsGet data c.field) = some x ∧ toNumber c.value = some y ∧ x ≤ y))
  ∧ (∀ (data : Ctx) (c : Condition),
      (c.operator = "greater_than" ∨ c.operator = "less_than" ∨
       c.operator = "greater_or_equal" ∨ c.operator = "less_or_equal") →
      (toNumber (jsGet data c.field) = none ∨ toNumber c.value = none) →
      evalCondition data c = false) := by
  refine ⟨?_, ?_, ?_, ?_, ?_, ?_, ?_, ?_, ?_, ?_, ?_, ?_⟩
  · intro data group h
    simp [evalGroup, h, List.all_eq_true]
  · intro data group h
    have hb : (jsOrStr group.groupLogic "AND" == "AND") = false := by
      simpa using h
    simp [evalGroup, hb, List.any_eq_true]
  · intro config data h
    simp [evalSplit, evalSplitGroups, h, List.all_eq_true]
  · intro config data h
    have hb : (jsOrStr config.groupsLogic "AND" == "AND") = false := by
      simpa using h
    simp [evalSplit, evalSplitGroups, hb, List.any_eq_true]
  · intro data c h
    simp [evalCondition, h]
  · intro data c h
    simp [evalCondition, h]
  · intro data c h
    simp [evalCondition, h, jsIncludes]
  · intro data c h
    simp only [evalCondition, h]
    norm_num
    unfold jsGt
    cases hx : toNumber (jsGet data c.field) <;> cases hy : toNumber c.value <;> simp
  · intro data c h
    simp only [evalCondition, h]
    norm_num
    unfold jsLt
    cases hx : toNumber (jsGet data c.field) <;> cases hy : toNumber c.value <;> simp
  · intro data c h
    simp only [evalCondition, h]
    norm_num
    unfold jsGe
    cases hx : toNumber (jsGet data c.field) <;> cases hy : toNumber c.value <;> simp
  · intro data c h
    simp only [evalCondition, h]
    norm_num
    unfold jsLe
    cases hx : toNumber (jsGet data c.field) <;> cases hy : toNumber c.value <;> simp
  · intro data c hop hnan
    rcases hop with h | h | h | h <;>
      simp only [evalCondition, h] <;>
      norm_num <;>
      first
        | (unfold jsGt; rcases hnan with hn | hn <;> simp [hn] <;>
           cases toNumber c.value <;> simp <;> cases toNumber (jsGet data c.field) <;> simp)
        | (unfold jsLt; rcases hnan with hn | hn <;> simp [hn] <;>
           cases toNumber c.value <;> simp <;> cases toNumber (jsGet data c.field) <;> simp)
        | (unfold jsGe; rcases hnan with hn | hn <;> simp [hn] <;>
           cases toNumber c.value <;> simp <;> cases toNumber (jsGet data c.field) <;> simp)
        | (unfold jsLe; rcases hnan with hn | hn <;> simp [hn] <;>
           cases toNumber c.value <;> simp <;> cases toNumber (jsGet data c.field) <;> simp)

/-- The spec's concrete split context `{order_total: 75}`. -/
def dataC4 : Ctx := [("order_total", .num 75)]

/-- The spec's concrete condition `order_total greater_than 50`. -/
def condC4 : Condition := { field := "order_total", operator := "greater_than", value := .num 50 }

/-- An AND group holding the one concrete condition. -/
def groupC4 : CondGroup := { conditions := some [condC4], groupLogic := some "AND" }

/-- A comparison against a missing field — `Number(undefined)` is NaN. -/
def condNaN : Condition := { field := "missing_field", operator := "greater_than", value := .num 50 }

/-- Witness for C4 at the spec's concrete scenario. -/
theorem c4_condition_evaluator_witness :
    (evalGroup dataC4 groupC4 = true ↔ ∀ c ∈ groupC4.conditions.getD [], evalCondition dataC4 c = true)
    ∧ (evalCondition dataC4 condC4 = true ↔
        ∃ x y, toNumber (jsGet dataC4 condC4.field) = some x ∧ toNumber condC4.value = some y ∧ x > y)
    ∧ evalGroup dataC4 groupC4 = true
    ∧ evalCondition dataC4 condNaN = false := by
  obtain ⟨h1, h2, h3, h4, h5, h6, h7, h8, h9, h10, h11, h12⟩ := c4_condition_evaluator
  exact ⟨h1 dataC4 groupC4 rfl, h8 dataC4 condC4 rfl, by decide,
    h12 dataC4 condNaN (Or.inl rfl) (Or.inl (by decide))⟩

/-! ## C2 — END convergence -/

/-- C2: `executeEnd` atomically increments the END entry's arrivalCount and
sets the run status to completed exactly when the incremented count reaches
the number of edges whose target is the END node; otherwise the run status
is untouched. -/
theorem c2_end_convergence (node : FlowNode) (flow : Flow) (executionId : String) (data : Ctx)
    (st : EngineState) (en : NodeExec) (hfind : findEntry st node.id = some en) :
    ((executeEnd node flow executionId data st).2.exec.status =
      (if en.arrivalCount + 1 ≥ (flow.edges.filter (fun e => e.target == node.id)).length
       then "completed" else st.exec.status))
    ∧ findEntry (executeEnd node flow executionId data st).2 node.id
        = some { en with arrivalCount := en.arrivalCount + 1 }
    ∧ (executeEnd node flow executionId data st).1
        = Except.ok (.endArrival (en.arrivalCount + 1)
            (flow.edges.filter (fun e => e.target == node.id)).length) := by
  have hupd : findEntry
      (updateEntry node.id (fun n => { n with arrivalCount := n.arrivalCount + 1 }) st) node.id
      = some { en with arrivalCount := en.arrivalCount + 1 } := by
    rw [findEntry_updateEntry st node.id (fun n => { n with arrivalCount := n.arrivalCount + 1 })
      (fun n => rfl), hfind]
    rfl
  unfold executeEnd
  simp only [hfind, hupd, Nat.succ_ne_zero, if_false]
  by_cases hge :
      en.arrivalCount + 1 ≥ (flow.edges.filter (fun e => e.target == node.id)).length
  · simp only [hge, if_true, ge_iff_le]
    refine ⟨?_, ?_, ?_⟩
    · simp [setRunStatus, hge]
    · simp only [findEntry, setRunStatus_executedNodes] at hupd ⊢
      simpa [hge] using hupd
    · simp [hge]
  · simp only [ge_iff_le] at hge
    refine ⟨?_, ?_, ?_⟩
    · simp [hge, updateEntry_status]
    · simpa [hge] using hupd
    · simp [hge]

/-- The END node of the C2 witness scenario. -/
def endNodeC2 : FlowNode := { id := "end1", type := "END" }

/-- A flow with a 2-way fan-out whose both paths route into the END node:
two edges have the END node as target. -/
def flowC2 : Flow :=
  { nodes := [{ id := "t", type := "TRIGGER" }, endNodeC2],
    edges := [ { id := "e1", source := "b1", target := "end1" },
               { id := "e2", source := "b2", target := "end1" } ] }

/-- The END entry as created on the first arrival, before counting. -/
def entryC2 : NodeExec :=
  { nodeId := "end1", nodeType := "END", status := "running", idempotencyKey := "exec1_end1" }

/-- A running execution document holding the END entry. -/
def stC2 : EngineState :=
  { exec := { id := "exec1", flowId := "flow1", status := "running", triggerData := [],
              branches := [], executedNodes := [entryC2] } }

/-- Witness for C2: with two expected arrivals, the first `executeEnd` leaves
the run running and the second completes it. -/
theorem c2_end_convergence_witness :
    ((executeEnd endNodeC2 flowC2 "exec1" [] stC2).2.exec.status = "running")
    ∧ ((executeEnd endNodeC2 flowC2 "exec1" []
        (executeEnd endNodeC2 flowC2 "exec1" [] stC2).2).2.exec.status = "completed") := by
  constructor
  · have h := (c2_end_convergence endNodeC2 flowC2 "exec1" [] stC2 entryC2 (by decide)).1
    rw [h]
    decide
  · have h := (c2_end_convergence endNodeC2 flowC2 "exec1" []
      (executeEnd endNodeC2 flowC2 "exec1" [] stC2).2
      { entryC2 with arrivalCount := 1 } (by decide)).1
    rw [h]
    decide

/-! ## C3 — retries, exhaustion and run-level failure -/

/-- A flow whose middle node has an unknown type: its dispatch throws
`Unknown node type: BROKEN` on every attempt. -/
def failFlow : Flow :=
  { nodes := [ { id := "t", type := "TRIGGER" },
               { id := "x", type := "BROKEN" },
               { id := "e", type := "END" } ],
    edges := [ { id := "e1", source := "t", target := "x" },
               { id := "e2", source := "x", target := "e" } ] }

/-- The final world of running `failFlow`. -/
def runFail : EngineState := runFlow 30 failFlow "exec1" "flow1" []

/-- Counterexample to C3 as stated: the failing node exhausts its retries
(backoff waits 1000, 2000, 3000 ms) and is marked failed with the error
message, no successor runs — but the run status stays `running`, not
`failed`: the error rethrown by the failing node lands in the completed
trigger's catch handler, whose "retry" skips the completed trigger and
swallows the error before it can reach `executeFlow`'s failure handler. -/
theorem c3_counterexample :
    runFail.exec.status = "running"
    ∧ ¬ runFail.exec.status = "failed"
    ∧ (findEntry runFail "x").map (fun n => (n.status, n.error))
        = some ("failed", some "Unknown node type: BROKEN")
    ∧ findEntry runFail "e" = none
    ∧ runFail.waits = [1000, 2000, 3000, 1000] := by
  exact ⟨by decide, by decide, by decide, by decide, by decide⟩

/-- C3 (amended): for a node whose dispatch attempt raises an error on every
attempt, while the entry's retryCount is below 3 the engine waits
`1000 × (retryCount+1)` ms, increments retryCount and re-executes the same
node; once retries are exhausted the entry is marked failed with the error
message, the error is rethrown and no successor state change happens.  The
run status is **not** set to failed here: when the rethrown error reaches
the catch handler of an already-completed ancestor, re-executing that
ancestor skips it (completed-entry check) and the error is swallowed, so
the run keeps its previous status. -/
theorem c3_retry_and_failure :
    (∀ (fuel : Nat) (node : FlowNode) (flow : Flow) (executionId : String) (data : Ctx)
       (branchId : String) (st : EngineState) (en : NodeExec) (e : String),
       node.type ≠ "END" →
       (∀ (recur : FlowNode → String → EM Unit) (s : EngineState),
          runAttempt recur node flow executionId data branchId s = (Except.error e, s)) →
       findEntry st node.id = some en →
       en.status ≠ "completed" →
       en.retryCount < 3 →
       executeNode (fuel + 1) node flow executionId data branchId st =
         executeNode fuel node flow executionId data branchId
           (updateEntry node.id (fun n => { n with retryCount := n.retryCount + 1 })
             (addWait (1000 * (en.retryCount + 1)) st)))
  ∧ (∀ (fuel : Nat) (node : FlowNode) (flow : Flow) (executionId : String) (data : Ctx)
       (branchId : String) (st : EngineState) (en : NodeExec) (e : String),
       node.type ≠ "END" →
       (∀ (recur : FlowNode → String → EM Unit) (s : EngineState),
          runAttempt recur node flow executionId data branchId s = (Except.error e, s)) →
       findEntry st node.id = some en →
       en.status ≠ "completed" →
       ¬ en.retryCount < 3 →
       executeNode (fuel + 1) node flow executionId data branchId st =
         (Except.error e,
          updateEntry node.id (fun n => { n with status := "failed", error := some e }) st))
  ∧ (∀ (fuel : Nat) (node : FlowNode) (flow : Flow) (executionId : String) (data : Ctx)
       (branchId : String) (st : EngineState) (en : NodeExec),
       node.type ≠ "END" →
       findEntry st node.id = some en →
       en.status = "completed" →
       executeNode (fuel + 1) node flow executionId data branchId st = (Except.ok (), st)) := by
  refine ⟨?_, ?_, ?_⟩
  · intro fuel node flow executionId data branchId st en e hne h hfind hst hrc
    have hEnd : (node.type == "END") = false := by simpa using hne
    have hcompleted : (en.status == "completed") = false := by simpa using hst
    conv_lhs => rw [executeNode]
    simp only [hEnd, Bool.false_eq_true, if_false, bind_em_apply, getEM_apply, hfind,
      hcompleted, tryCatchEM, h, catchHandler, modifyEM_apply, Option.map_some, Option.getD_some]
    simp [hrc]
  · intro fuel node flow executionId data branchId st en e hne h hfind hst hrc
    have hEnd : (node.type == "END") = false := by simpa using hne
    have hcompleted : (en.status == "completed") = false := by simpa using hst
    conv_lhs => rw [executeNode]
    simp only [hEnd, Bool.false_eq_true, if_false, bind_em_apply, getEM_apply, hfind,
      hcompleted, tryCatchEM, h, catchHandler, modifyEM_apply, Option.map_some, Option.getD_some]
    simp [hrc, throwEM]
  · intro fuel node flow executionId data branchId st en hne hfind hst
    have hEnd : (node.type == "END") = false := by simpa using hne
    have hcompleted : (en.status == "completed") = true := by simpa using hst
    conv_lhs => rw [executeNode]
    simp only [hEnd, Bool.false_eq_true, if_false, bind_em_apply, getEM_apply, hfind,
      hcompleted, if_true, pure_em_apply]

/-- The always-failing node of the C3 witness. -/
def nodeC3 : FlowNode := { id := "x", type := "BROKEN" }

/-- A minimal flow holding the failing node. -/
def flowC3 : Flow := { nodes := [nodeC3], edges := [] }

/-- The entry for the failing node with `retryCount = r`. -/
def entryC3 (r : Nat) : NodeExec :=
  { nodeId := "x", nodeType := "BROKEN", status := "running",
    idempotencyKey := "exec1_x", retryCount := r }

/-- A world whose document holds the failing node's entry at `retryCount = r`. -/
def stC3 (r : Nat) : EngineState :=
  { exec := { id := "exec1", flowId := "flow1", status := "running", triggerData := [],
              branches := [], executedNodes := [entryC3 r] } }

/-- A world whose document holds a completed entry for the node. -/
def stC3done : EngineState :=
  { exec := { id := "exec1", flowId := "flow1", status := "running", triggerData := [],
              branches := [],
              executedNodes := [{ entryC3 0 with status := "completed" }] } }

/-- Witness for C3 (amended) at the concrete failing node. -/
theorem c3_retry_and_failure_witness :
    (executeNode 5 nodeC3 flowC3 "exec1" [] "root" (stC3 0) =
      executeNode 4 nodeC3 flowC3 "exec1" [] "root"
        (updateEntry nodeC3.id (fun n => { n with retryCount := n.retryCount + 1 })
          (addWait (1000 * ((entryC3 0).retryCount + 1)) (stC3 0))))
    ∧ (executeNode 5 nodeC3 flowC3 "exec1" [] "root" (stC3 3) =
        (Except.error "Unknown node type: BROKEN",
         updateEntry nodeC3.id
           (fun n => { n with status := "failed", error := some "Unknown node type: BROKEN" })
           (stC3 3)))
    ∧ (executeNode 5 nodeC3 flowC3 "exec1" [] "root" stC3done = (Except.ok (), stC3done)) := by
  obtain ⟨h1, h2, h3⟩ := c3_retry_and_failure
  exact ⟨h1 4 nodeC3 flowC3 "exec1" [] "root" (stC3 0) (entryC3 0) "Unknown node type: BROKEN"
      (by decide) (fun recur s => rfl) (by decide) (by decide) (by decide),
    h2 4 nodeC3 flowC3 "exec1" [] "root" (stC3 3) (entryC3 3) "Unknown node type: BROKEN"
      (by decide) (fun recur s => rfl) (by decide) (by decide) (by decide),
    h3 4 nodeC3 flowC3 "exec1" [] "root" stC3done { entryC3 0 with status := "completed" }
      (by decide) (by decide) (by decide)⟩

/-! ## C5 — conditional-split routing -/

/-- C5: after evaluation the split follows the first outgoing edge whose
`sourceHandle` equals the result string, recursing into its target in the
same branch with no branch added before the recursion; when no outgoing
edge matches, only the split's own entry is updated — the run status and
the branch table are unchanged and no successor is executed. -/
theorem c5_conditional_split_routing :
    (∀ (recur : FlowNode → String → EM Unit) (node : FlowNode) (flow : Flow) (data : Ctx)
       (branchId : String) (st : EngineState) (edge : FlowEdge) (nextNode : FlowNode),
       ((flow.edges.filter (fun e => e.source == node.id)).find? (fun e =>
           e.sourceHandle == some (if evalSplit (node.config.getD {}) data then "true" else "false"))
         = some edge) →
       flow.nodes.find? (fun n => n.id == edge.target) = some nextNode →
       executeConditionalSplit recur node flow data branchId st =
         ((recur nextNode branchId >>= fun _ =>
            pure (NodeResult.condSplit (evalSplit (node.config.getD {}) data)
              (evalSplitGroups (node.config.getD {}) data)))
           (updateEntry node.id (fun n =>
             { n with status := "completed",
                      result := some (.condSplit (evalSplit (node.config.getD {}) data)
                        (evalSplitGroups (node.config.getD {}) data)) }) st))
       ∧ (updateEntry node.id (fun n =>
             { n with status := "completed",
                      result := some (.condSplit (evalSplit (node.config.getD {}) data)
                        (evalSplitGroups (node.config.getD {}) data)) }) st).exec.branches
           = st.exec.branches)
  ∧ (∀ (recur : FlowNode → String → EM Unit) (node : FlowNode) (flow : Flow) (data : Ctx)
       (branchId : String) (st : EngineState),
       ((flow.edges.filter (fun e => e.source == node.id)).find? (fun e =>
           e.sourceHandle == some (if evalSplit (node.config.getD {}) data then "true" else "false"))
         = none) →
       executeConditionalSplit recur node flow data branchId st =
         (Except.ok (.condSplit (evalSplit (node.config.getD {}) data)
            (evalSplitGroups (node.config.getD {}) data)),
          updateEntry node.id (fun n =>
            { n with status := "completed",
                     result := some (.condSplit (evalSplit (node.config.getD {}) data)
                       (evalSplitGroups (node.config.getD {}) data)) }) st)
       ∧ (updateEntry node.id (fun n =>
             { n with status := "completed",
                      result := some (.condSplit (evalSplit (node.config.getD {}) data)
                        (evalSplitGroups (node.config.getD {}) data)) }) st).exec.status
           = st.exec.status
       ∧ (updateEntry node.id (fun n =>
             { n with status := "completed",
                      result := some (.condSplit (evalSplit (node.config.getD {}) data)
                        (evalSplitGroups (node.config.getD {}) data)) }) st).exec.branches
           = st.exec.branches) := by
  constructor
  · intro recur node flow data branchId st edge nextNode hedge hnode
    refine ⟨?_, updateEntry_branches _ _ _⟩
    unfold executeConditionalSplit
    simp only [bind_em_apply, modifyEM_apply, hedge, hnode]
  · intro recur node flow data branchId st hedge
    refine ⟨?_, updateEntry_status _ _ _, updateEntry_branches _ _ _⟩
    unfold executeConditionalSplit
    simp only [bind_em_apply, modifyEM_apply, hedge, pure_em_apply]

/-- The split node of the C5 witness: `order_total greater_than 50`. -/
def splitNodeC5 : FlowNode :=
  { id := "s", type := "CONDITIONAL_SPLIT",
    config := some { conditionGroups := some [groupC4], groupsLogic := some "AND" } }

/-- The target behind the `true` edge. -/
def targetC5 : FlowNode := { id := "yes", type := "ADD_ORDER_NOTE" }

/-- The split's flow: only a `true` edge is configured (no `false` edge). -/
def flowC5 : Flow :=
  { nodes := [splitNodeC5, targetC5],
    edges := [ { id := "e1", source := "s", target := "yes", sourceHandle := some "true" } ] }

/-- A running world holding the split's entry. -/
def stC5 : EngineState :=
  { exec := { id := "exec1", flowId := "flow1", status := "running", triggerData := [],
              branches := [{ branchId := "root", status := "running", currentNodeId := "s",
                             path := [] }],
              executedNodes := [{ nodeId := "s", nodeType := "CONDITIONAL_SPLIT",
                                  status := "running", idempotencyKey := "exec1_s" }] } }

/-- A continuation that only records nothing — the theorem holds for any. -/
def recurC5 : FlowNode → String → EM Unit := fun _ _ => pure ()

/-- Witness for C5 at the spec's concrete scenario: `{order_total: 75}`
follows the `true` edge in the same branch; `{order_total: 10}` finds no
`false` edge and stalls without failing the run. -/
theorem c5_conditional_split_routing_witness :
    (executeConditionalSplit recurC5 splitNodeC5 flowC5 [("order_total", .num 75)] "root" stC5 =
      ((recurC5 targetC5 "root" >>= fun _ =>
         pure (NodeResult.condSplit
           (evalSplit (splitNodeC5.config.getD {}) [("order_total", .num 75)])
           (evalSplitGroups (splitNodeC5.config.getD {}) [("order_total", .num 75)])))
        (updateEntry splitNodeC5.id (fun n =>
          { n with status := "completed",
                   result := some (.condSplit
                     (evalSplit (splitNodeC5.config.getD {}) [("order_total", .num 75)])
                     (evalSplitGroups (splitNodeC5.config.getD {}) [("order_total", .num 75)])) })
          stC5)))
    ∧ (executeConditionalSplit recurC5 splitNodeC5 flowC5 [("order_total", .num 10)] "root" stC5 =
        (Except.ok (.condSplit
           (evalSplit (splitNodeC5.config.getD {}) [("order_total", .num 10)])
           (evalSplitGroups (splitNodeC5.config.getD {}) [("order_total", .num 10)])),
         updateEntry splitNodeC5.id (fun n =>
           { n with status := "completed",
                    result := some (.condSplit
                      (evalSplit (splitNodeC5.config.getD {}) [("order_total", .num 10)])
                      (evalSplitGroups (splitNodeC5.config.getD {}) [("order_total", .num 10)])) })
          stC5))
    ∧ ((updateEntry splitNodeC5.id (fun n =>
          { n with status := "completed",
                   result := some (.condSplit
                     (evalSplit (splitNodeC5.config.getD {}) [("order_total", .num 10)])
                     (evalSplitGroups (splitNodeC5.config.getD {}) [("order_total", .num 10)])) })
          stC5).exec.status = stC5.exec.status) := by
  obtain ⟨hA, hB⟩ := c5_conditional_split_routing
  refine ⟨?_, ?_, ?_⟩
  · exact (hA recurC5 splitNodeC5 flowC5 [("order_total", .num 75)] "root" stC5
      { id := "e1", source := "s", target := "yes", sourceHandle := some "true" } targetC5
      (by decide) (by decide)).1
  · exact (hB recurC5 splitNodeC5 flowC5 [("order_total", .num 10)] "root" stC5 (by decide)).1
  · exact (hB recurC5 splitNodeC5 flowC5 [("order_total", .num 10)] "root" stC5 (by decide)).2.1

/-! ## C6 — fan-out branch creation.
Distinctness of the hierarchical child ids needs injectivity of the decimal
representation of the index, which is proved here from a digit-value
roundtrip on `Nat.toDigitsCore`. -/

/-- Decimal value of a digit character produced by `Nat.digitChar`. -/
def digitVal (c : Char) : Nat := c.toNat - 48

/-- Most-significant-digit-first value of a digit string. -/
def digitsVal (l : List Char) : Nat := l.foldl (fun acc c => acc * 10 + digitVal c) 0

theorem digitsVal_append_singleton (l : List Char) (c : Char) :
    digitsVal (l ++ [c]) = digitsVal l * 10 + digitVal c := by
  simp [digitsVal, List.foldl_append]

theorem digitVal_digitChar (k : Nat) (h : k < 10) : digitVal (Nat.digitChar k) = k := by
  interval_cases k <;> decide

theorem toDigitsCore_append (b f n : Nat) (ds : List Char) :
    Nat.toDigitsCore b f n ds = Nat.toDigitsCore b f n [] ++ ds := by
  induction f generalizing n ds with
  | zero => simp [Nat.toDigitsCore]
  | succ f ih =>
    simp only [Nat.toDigitsCore]
    by_cases h : n / b = 0
    · simp [h]
    · simp only [h, if_false]
      rw [ih (n / b) (Nat.digitChar (n % b) :: ds), ih (n / b) [Nat.digitChar (n % b)]]
      simp

theorem digitsVal_toDigitsCore (n : Nat) :
    ∀ f, n < f → digitsVal (Nat.toDigitsCore 10 f n []) = n := by
  induction n using Nat.strong_induction_on with
  | _ n ih =>
    intro f hf
    match f, hf with
    | f + 1, hf =>
      simp only [Nat.toDigitsCore]
      by_cases h : n / 10 = 0
      · simp only [h, if_true]
        simp [digitsVal, digitVal_digitChar (n % 10) (Nat.mod_lt _ (by omega))]
        omega
      · simp only [h, if_false]
        rw [toDigitsCore_append, digitsVal_append_singleton]
        have hn10 : n / 10 < n := Nat.div_lt_self (by omega) (by omega)
        rw [ih (n / 10) hn10 f (by omega)]
        rw [digitVal_digitChar (n % 10) (Nat.mod_lt _ (by omega))]
        omega

theorem nat_repr_injective : Function.Injective Nat.repr := by
  intro m n h
  have hm := digitsVal_toDigitsCore m (m + 1) (Nat.lt_succ_self m)
  have hn := digitsVal_toDigitsCore n (n + 1) (Nat.lt_succ_self n)
  have hdata : (Nat.repr m).data = (Nat.repr n).data := by rw [h]
  simp only [Nat.repr, Nat.toDigits, List.asString] at hdata
  rw [← hm, ← hn, hdata]

/-- The hierarchical child-id map `i ↦ branchId ++ "_" ++ toString i` is
injective in the index. -/
theorem childId_injective (branchId : String) :
    Function.Injective (fun i : Nat => branchId ++ "_" ++ toString i) := by
  intro i j h
  have hdata := congrArg String.data h
  simp only [String.data_append] at hdata
  have : (toString i).data = (toString j).data := List.append_cancel_left hdata
  exact nat_repr_injective (String.ext this)

/-- A two-edge fan-out flow: `t → a`, then `a → b` and `a → c`. -/
def fanFlow : Flow :=
  { nodes := [ { id := "t", type := "TRIGGER" },
               { id := "a", type := "ADD_ORDER_NOTE" },
               { id := "b", type := "ADD_CUSTOMER_NOTE" },
               { id := "c", type := "ADD_CUSTOMER_NOTE" },
               { id := "e", type := "END" } ],
    edges := [ { id := "e1", source := "t", target := "a" },
               { id := "e2", source := "a", target := "b" },
               { id := "e3", source := "a", target := "c" },
               { id := "e4", source := "b", target := "e" },
               { id := "e5", source := "c", target := "e" } ] }

/-- The final world of running `fanFlow`. -/
def runFan : EngineState := runFlow 30 fanFlow "exec1" "flow1" []

/-- Counterexample to C6 as stated: the child branches created at the
fan-out from node `a` carry `path = ["a"]` (the literal array `[node.id]`),
while the parent branch `root` still has `path = []` — the children do
**not** inherit the parent branch's current traversal path. -/
theorem c6_counterexample :
    ((runFan.exec.branches.find? (fun b => b.branchId == "root")).map (fun b => b.path) = some [])
    ∧ ((runFan.exec.branches.find? (fun b => b.branchId == "root_0")).map (fun b => b.path)
        = some ["a"])
    ∧ ((runFan.exec.branches.find? (fun b => b.branchId == "root_0")).map (fun b => b.path)
        ≠ (runFan.exec.branches.find? (fun b => b.branchId == "root")).map (fun b => b.path)) := by
  exact ⟨by decide, by decide, by decide⟩

/-- C6 (amended): at a fan-out point with N > 1 outgoing edges, exactly N
child branches with the distinct hierarchical ids `branchId_0 … branchId_(N-1)`
are pushed to the document **before** any child recursion runs; each child
branch is running and carries `path = [node.id]` — the fan-out node's id
alone, not the parent branch's path.  With exactly one outgoing edge no
branch is pushed and the continuation receives the unchanged `branchId`. -/
theorem c6_fanout_branches :
    (∀ (recur : FlowNode → String → EM Unit) (node : FlowNode) (flow : Flow)
       (branchId : String) (st : EngineState),
       (flow.edges.filter (fun e => e.source == node.id)).length > 1 →
       fanOut recur node flow branchId st =
         runChildren recur flow branchId true 0 (flow.edges.filter (fun e => e.source == node.id))
           (pushBranches (childBranches branchId node
             (flow.edges.filter (fun e => e.source == node.id))) st))
  ∧ (∀ (branchId : String) (node : FlowNode) (edges : List FlowEdge),
       ((childBranches branchId node edges).map (fun br => br.branchId)
          = (List.range edges.length).map (fun i => branchId ++ "_" ++ toString i))
       ∧ ((childBranches branchId node edges).map (fun br => br.branchId)).Nodup
       ∧ (∀ br ∈ childBranches branchId node edges, br.path = [node.id] ∧ br.status = "running")
       ∧ (childBranches branchId node edges).length = edges.length)
  ∧ (∀ (recur : FlowNode → String → EM Unit) (node : FlowNode) (flow : Flow)
       (branchId : String) (st : EngineState),
       (flow.edges.filter (fun e => e.source == node.id)).length = 1 →
       fanOut recur node flow branchId st =
         runChildren recur flow branchId false 0
           (flow.edges.filter (fun e => e.source == node.id)) st)
  ∧ (∀ (recur : FlowNode → String → EM Unit) (flow : Flow) (branchId : String) (i : Nat)
       (e : FlowEdge),
       runChildren recur flow branchId false i [e] =
         ((match flow.nodes.find? (fun n => n.id == e.target) with
           | some nextNode => recur nextNode branchId
           | none => pure ()) >>= fun _ => pure ())) := by
  refine ⟨?_, ?_, ?_, ?_⟩
  · intro recur node flow branchId st h
    unfold fanOut
    simp only [bind_em_apply, if_pos h, modifyEM_apply, decide_eq_true h]
  · intro branchId node edges
    refine ⟨?_, ?_, ?_, ?_⟩
    · simp only [childBranches, List.map_map]
      have : ((fun br : BranchRec => br.branchId) ∘ fun ie : Nat × FlowEdge =>
          ({ branchId := branchId ++ "_" ++ toString ie.1, status := "running",
             currentNodeId := ie.2.target, path := [node.id] } : BranchRec))
          = (fun i : Nat => branchId ++ "_" ++ toString i) ∘ Prod.fst := rfl
      rw [this, ← List.map_map, List.enum_map_fst]
    · have hids : ((childBranches branchId node edges).map (fun br => br.branchId)
          = (List.range edges.length).map (fun i => branchId ++ "_" ++ toString i)) := by
        simp only [childBranches, List.map_map]
        have : ((fun br : BranchRec => br.branchId) ∘ fun ie : Nat × FlowEdge =>
            ({ branchId := branchId ++ "_" ++ toString ie.1, status := "running",
               currentNodeId := ie.2.target, path := [node.id] } : BranchRec))
            = (fun i : Nat => branchId ++ "_" ++ toString i) ∘ Prod.fst := rfl
        rw [this, ← List.map_map, List.enum_map_fst]
      rw [hids]
      exact (List.nodup_range _).map (childId_injective branchId)
    · intro br hbr
      simp only [childBranches, List.mem_map] at hbr
      obtain ⟨ie, _, rfl⟩ := hbr
      exact ⟨rfl, rfl⟩
    · simp [childBranches]
  · intro recur node flow branchId st h
    unfold fanOut
    have hno : ¬ (flow.edges.filter (fun e => e.source == node.id)).length > 1 := by omega
    simp only [bind_em_apply, if_neg hno, pure_em_apply, decide_eq_false hno]
  · intro recur flow branchId i e
    rfl

/-- A continuation for the C6 witness. -/
def recurC6 : FlowNode → String → EM Unit := fun _ _ => pure ()

/-- The fan-out node of the C6 witness. -/
def nodeC6 : FlowNode := { id := "a", type := "ADD_ORDER_NOTE" }

/-- A running world for the C6 witness. -/
def stC6 : EngineState :=
  { exec := { id := "exec1", flowId := "flow1", status := "running", triggerData := [],
              branches := [{ branchId := "root", status := "running", currentNodeId := "a",
                             path := [] }],
              executedNodes := [] } }

/-- Witness for C6 (amended) at the concrete two-edge fan-out. -/
theorem c6_fanout_branches_witness :
    (fanOut recurC6 nodeC6 fanFlow "root" stC6 =
      runChildren recurC6 fanFlow "root" true 0
        (fanFlow.edges.filter (fun e => e.source == nodeC6.id))
        (pushBranches (childBranches "root" nodeC6
          (fanFlow.edges.filter (fun e => e.source == nodeC6.id))) stC6))
    ∧ ((childBranches "root" nodeC6
          (fanFlow.edges.filter (fun e => e.source == nodeC6.id))).map
        (fun br => br.branchId)).Nodup
    ∧ (∀ br ∈ childBranches "root" nodeC6
          (fanFlow.edges.filter (fun e => e.source == nodeC6.id)),
        br.path = [nodeC6.id] ∧ br.status = "running") := by
  obtain ⟨hA, hB, hC, hD⟩ := c6_fanout_branches
  exact ⟨hA recurC6 nodeC6 fanFlow "root" stC6 (by decide),
    (hB "root" nodeC6 (fanFlow.edges.filter (fun e => e.source == nodeC6.id))).2.1,
    (hB "root" nodeC6 (fanFlow.edges.filter (fun e => e.source == nodeC6.id))).2.2.1⟩

/-! ## C7 — the time-delay executor -/

@[simp] theorem updateEntry_resumeAt (nodeId : String) (f : NodeExec → NodeExec)
    (st : EngineState) : (updateEntry nodeId f st).exec.resumeAt = st.exec.resumeAt := rfl

@[simp] theorem updateEntry_resumeData (nodeId : String) (f : NodeExec → NodeExec)
    (st : EngineState) : (updateEntry nodeId f st).exec.resumeData = st.exec.resumeData := rfl

@[simp] theorem updateEntry_delayJobs (nodeId : String) (f : NodeExec → NodeExec)
    (st : EngineState) : (updateEntry nodeId f st).delayJobs = st.delayJobs := rfl

@[simp] theorem updateEntry_now (nodeId : String) (f : NodeExec → NodeExec)
    (st : EngineState) : (updateEntry nodeId f st).now = st.now := rfl

/-- C7 (amended): on its first visit a TIME_DELAY node records `resumeAt`
and `resumeData` = {the targets of all edges leaving the delay node, the
current context, the current branchId}, marks its own entry completed with
the delay payload, enqueues a resume job firing after the computed delay —
and sets the run status to `delayed` **unconditionally**, regardless of any
other branch still running. -/
theorem c7_time_delay (node : FlowNode) (flow : Flow) (executionId : String) (data : Ctx)
    (branchId : String) (st : EngineState) (en : NodeExec)
    (hfind : findEntry st node.id = some en) :
    ((executeTimeDelay node flow executionId data branchId st).1 = Except.ok ())
    ∧ (executeTimeDelay node flow executionId data branchId st).2.exec.status = "delayed"
    ∧ (executeTimeDelay node flow executionId data branchId st).2.exec.resumeAt
        = some (st.now + delayMsOf (jsOrInt (node.config.getD {}).duration 0)
            (jsOrStr (node.config.getD {}).unit "minutes"))
    ∧ (executeTimeDelay node flow executionId data branchId st).2.exec.resumeData
        = some { nextNodeIds := (flow.edges.filter (fun e => e.source == node.id)).map
                   (fun e => e.target),
                 context := data, branchId := branchId }
    ∧ (executeTimeDelay node flow executionId data branchId st).2.delayJobs
        = st.delayJobs ++
          [{ executionId := executionId,
             nextNodeIds := (flow.edges.filter (fun e => e.source == node.id)).map
               (fun e => e.target),
             context := data, branchId := branchId,
             delay := delayMsOf (jsOrInt (node.config.getD {}).duration 0)
               (jsOrStr (node.config.getD {}).unit "minutes") }]
    ∧ findEntry (executeTimeDelay node flow executionId data branchId st).2 node.id
        = some { en with
            status := "completed",
            result := some (.timeDelay (jsOrInt (node.config.getD {}).duration 0)
              (jsOrStr (node.config.getD {}).unit "minutes")
              (delayMsOf (jsOrInt (node.config.getD {}).duration 0)
                (jsOrStr (node.config.getD {}).unit "minutes"))) } := by
  refine ⟨rfl, rfl, rfl, rfl, rfl, ?_⟩
  have hstep : findEntry (executeTimeDelay node flow executionId data branchId st).2 node.id
      = findEntry (updateEntry node.id (fun n =>
          { n with
              status := "completed",
              result := some (.timeDelay (jsOrInt (node.config.getD {}).duration 0)
                (jsOrStr (node.config.getD {}).unit "minutes")
                (delayMsOf (jsOrInt (node.config.getD {}).duration 0)
                  (jsOrStr (node.config.getD {}).unit "minutes"))) }) st) node.id := rfl
  rw [hstep, findEntry_updateEntry st node.id (fun n =>
          { n with
              status := "completed",
              result := some (.timeDelay (jsOrInt (node.config.getD {}).duration 0)
                (jsOrStr (node.config.getD {}).unit "minutes")
                (delayMsOf (jsOrInt (node.config.getD {}).duration 0)
                  (jsOrStr (node.config.getD {}).unit "minutes"))) }) (fun n => rfl), hfind]
  rfl

/-- The TIME_DELAY node of the C7 witness. -/
def delayNodeC7 : FlowNode :=
  { id := "d", type := "TIME_DELAY",
    config := some { duration := some 5, unit := some "minutes" } }

/-- The delay node's entry at witness time. -/
def entryC7 : NodeExec :=
  { nodeId := "d", nodeType := "TIME_DELAY", status := "running", idempotencyKey := "exec1_d" }

/-- The flow around the delay node. -/
def flowC7 : Flow :=
  { nodes := [delayNodeC7, { id := "n1", type := "SEND_MESSAGE" }],
    edges := [{ id := "e1", source := "d", target := "n1" }] }

/-- A world in which **another branch is still running** while branch
`root_0` hits the delay node. -/
def stC7 : EngineState :=
  { exec := { id := "exec1", flowId := "flow1", status := "running", triggerData := [],
              branches := [ { branchId := "root_0", status := "running", currentNodeId := "d",
                              path := [] },
                            { branchId := "root_1", status := "running", currentNodeId := "z",
                              path := [] } ],
              executedNodes := [entryC7] } }

/-- Counterexample to C7 as stated: with branch `root_1` still running, the
delay executor nevertheless sets the run status to `delayed`. -/
theorem c7_counterexample :
    (stC7.exec.branches.any (fun b => b.branchId != "root_0" && b.status == "running") = true)
    ∧ (executeTimeDelay delayNodeC7 flowC7 "exec1" [] "root_0" stC7).2.exec.status = "delayed" := by
  exact ⟨by decide, by decide⟩

/-- Witness for C7 (amended) at the concrete delay scenario. -/
theorem c7_time_delay_witness :
    ((executeTimeDelay delayNodeC7 flowC7 "exec1" [] "root_0" stC7).2.exec.status = "delayed")
    ∧ ((executeTimeDelay delayNodeC7 flowC7 "exec1" [] "root_0" stC7).2.exec.resumeData
        = some { nextNodeIds := (flowC7.edges.filter (fun e => e.source == delayNodeC7.id)).map
                   (fun e => e.target),
                 context := [], branchId := "root_0" })
    ∧ (findEntry (executeTimeDelay delayNodeC7 flowC7 "exec1" [] "root_0" stC7).2 delayNodeC7.id
        = some { entryC7 with
            status := "completed",
            result := some (.timeDelay (jsOrInt (delayNodeC7.config.getD {}).duration 0)
              (jsOrStr (delayNodeC7.config.getD {}).unit "minutes")
              (delayMsOf (jsOrInt (delayNodeC7.config.getD {}).duration 0)
                (jsOrStr (delayNodeC7.config.getD {}).unit "minutes"))) }) := by
  have h := c7_time_delay delayNodeC7 flowC7 "exec1" [] "root_0" stC7 entryC7 (by decide)
  exact ⟨h.2.1, h.2.2.2.1, h.2.2.2.2.2⟩

/-! ## C8 — the retry entry point -/

/-- The flows collection of the C8 scenario: the flow **does** exist. -/
def flowC8 : Flow :=
  { nodes := [ { id := "t", type := "TRIGGER" }, { id := "x", type := "SEND_MESSAGE" } ],
    edges := [ { id := "e1", source := "t", target := "x" } ] }

/-- A failed execution (id `exec1`, flow `flow1`) with one failed entry. -/
def stC8 : EngineState :=
  { exec := { id := "exec1", flowId := "flow1", status := "failed", triggerData := [],
              branches := [],
              executedNodes := [ { nodeId := "x", nodeType := "SEND_MESSAGE", status := "failed",
                                   idempotencyKey := "exec1_x", error := some "boom" } ] } }

/-- C8 is a code bug: line 94 of the service looks the flow up in the
**executions** collection (`this.executionModel.findById(execution.flowId)`),
so whenever the flow id differs from the execution's own id — always, for
distinct documents — `retryExecution` throws `Flow not found` before
resetting anything: the failed entry stays untouched and the run is not
re-entered, although the flow exists in the flows collection. -/
theorem c8_retry_throws_flow_not_found :
    (∀ (fuel : Nat) (flows : List (String × Flow)) (st : EngineState),
       st.exec.flowId ≠ st.exec.id →
       retryExecution fuel flows st.exec.id st = (Except.error "Flow not found", st))
    ∧ (∃ en ∈ stC8.exec.executedNodes, en.status = "failed")
    ∧ (flowC8 ∈ ([("flow1", flowC8)] : List (String × Flow)).map (fun p => p.2))
    ∧ retryExecution 10 [("flow1", flowC8)] "exec1" stC8 = (Except.error "Flow not found", stC8)
    ∧ findEntry (retryExecution 10 [("flow1", flowC8)] "exec1" stC8).2 "x" = findEntry stC8 "x"
    ∧ (retryExecution 10 [("flow1", flowC8)] "exec1" stC8).2.exec.status = "failed" := by
  refine ⟨?_, ?_, ?_, ?_, ?_, ?_⟩
  · intro fuel flows st hne
    unfold retryExecution
    have h1 : (st.exec.id == st.exec.id) = true := beq_self_eq_true _
    have h2 : (st.exec.flowId == st.exec.id) = false := by simpa using hne
    simp only [h1, h2, if_true, Bool.false_eq_true, if_false]
  · exact ⟨_, List.mem_cons_self _ _, rfl⟩
  · decide
  · rfl
  · decide
  · decide

/-- Witness for C8 applying the general statement at the concrete failed
execution. -/
theorem c8_retry_throws_flow_not_found_witness :
    retryExecution 10 [("flow1", flowC8)] stC8.exec.id stC8
      = (Except.error "Flow not found", stC8) :=
  c8_retry_throws_flow_not_found.1 10 [("flow1", flowC8)] stC8 (by decide)

/-! ## C9 — the idempotency key.
`keysOK` is the invariant that every `NodeExecution` entry of the document
carries the deterministic key `idemKey executionId nodeId`; it is preserved
by every step of the engine, which is how the key stays identical across
retries and resumes. -/

/-- Every entry's recorded key is the deterministic `idemKey` of its node. -/
def keysOK (executionId : String) (st : EngineState) : Prop :=
  ∀ en ∈ st.exec.executedNodes, en.idempotencyKey = idemKey executionId en.nodeId

/-- An engine computation preserves the key invariant. -/
def PreservesKeys (executionId : String) {α : Type} (m : EM α) : Prop :=
  ∀ st, keysOK executionId st → keysOK executionId (m st).2

theorem preservesKeys_pure {α : Type} (eid : String) (a : α) :
    PreservesKeys eid (pure a : EM α) := fun _ h => h

theorem preservesKeys_throw {α : Type} (eid e : String) :
    PreservesKeys eid (throwEM (α := α) e) := fun _ h => h

theorem preservesKeys_get (eid : String) : PreservesKeys eid getEM := fun _ h => h

theorem preservesKeys_modify (eid : String) (f : EngineState → EngineState)
    (hf : ∀ st, keysOK eid st → keysOK eid (f st)) :
    PreservesKeys eid (modifyEM f) := fun st h => hf st h

theorem preservesKeys_bind {α β : Type} (eid : String) (x : EM α) (f : α → EM β)
    (hx : PreservesKeys eid x) (hf : ∀ a, PreservesKeys eid (f a)) :
    PreservesKeys eid (x >>= f) := by
  intro st h
  have hst1 := hx st h
  rcases hxv : x st with ⟨r, st1⟩
  rw [hxv] at hst1
  cases r with
  | ok a =>
    have hres : (x >>= f) st = f a st1 := by
      show (match x st with
        | (Except.ok a, st1) => f a st1
        | (Except.error e, st1) => (Except.error e, st1)) = f a st1
      rw [hxv]
    rw [hres]
    exact hf a st1 hst1
  | error e =>
    have hres : (x >>= f) st = (Except.error e, st1) := by
      show (match x st with
        | (Except.ok a, st1) => f a st1
        | (Except.error e, st1) => (Except.error e, st1)) = (Except.error e, st1)
      rw [hxv]
    rw [hres]
    exact hst1

theorem preservesKeys_tryCatch {α : Type} (eid : String) (x : EM α) (hdl : String → EM α)
    (hx : PreservesKeys eid x) (hh : ∀ e, PreservesKeys eid (hdl e)) :
    PreservesKeys eid (tryCatchEM x hdl) := by
  intro st h
  have hst1 := hx st h
  rcases hxv : x st with ⟨r, st1⟩
  rw [hxv] at hst1
  cases r with
  | ok a =>
    have hres : tryCatchEM x hdl st = (Except.ok a, st1) := by
      unfold tryCatchEM
      rw [hxv]
    rw [hres]
    exact hst1
  | error e =>
    have hres : tryCatchEM x hdl st = hdl e st1 := by
      unfold tryCatchEM
      rw [hxv]
    rw [hres]
    exact hh e st1 hst1

theorem mem_updateFirst {α : Type} (p : α → Bool) (f : α → α) (l : List α) (x : α)
    (hx : x ∈ updateFirst p f l) : x ∈ l ∨ ∃ y, y ∈ l ∧ x = f y := by
  induction l with
  | nil => simp [updateFirst] at hx
  | cons a as ih =>
    rw [updateFirst] at hx
    by_cases hp : p a = true
    · rw [if_pos hp] at hx
      rcases List.mem_cons.mp hx with h | h
      · exact Or.inr ⟨a, List.mem_cons_self _ _, h⟩
      · exact Or.inl (List.mem_cons_of_mem _ h)
    · rw [if_neg hp] at hx
      rcases List.mem_cons.mp hx with h | h
      · exact Or.inl (h ▸ List.mem_cons_self _ _)
      · rcases ih h with h1 | ⟨y, hy, hxy⟩
        · exact Or.inl (List.mem_cons_of_mem _ h1)
        · exact Or.inr ⟨y, List.mem_cons_of_mem _ hy, hxy⟩

theorem keysOK_updateEntry (eid nodeId : String) (f : NodeExec → NodeExec)
    (hf : ∀ n : NodeExec, (f n).idempotencyKey = n.idempotencyKey ∧ (f n).nodeId = n.nodeId)
    (st : EngineState) (h : keysOK eid st) : keysOK eid (updateEntry nodeId f st) := by
  intro en hen
  rcases mem_updateFirst _ _ _ _ hen with hmem | ⟨y, hy, rfl⟩
  · exact h en hmem
  · rw [(hf y).1, (hf y).2]
    exact h y hy

theorem keysOK_pushEntry (eid : String) (node : FlowNode) (st : EngineState)
    (h : keysOK eid st) : keysOK eid (pushEntry node (idemKey eid node.id) st) := by
  intro en hen
  rcases List.mem_append.mp hen with hm | hm
  · exact h en hm
  · rcases List.mem_singleton.mp hm with rfl
    rfl

theorem find?_append_none {α : Type} (p : α → Bool) (l1 l2 : List α)
    (h : l1.find? p = none) : (l1 ++ l2).find? p = l2.find? p := by
  induction l1 with
  | nil => simp
  | cons a as ih =>
    by_cases hp : p a = true
    · rw [List.find?_cons_of_pos _ hp] at h
      cases h
    · rw [List.find?_cons_of_neg _ (by simpa using hp)] at h
      rw [List.cons_append, List.find?_cons_of_neg _ (by simpa using hp)]
      exact ih h

theorem preservesKeys_mockSend (eid k : String) (a : JSVal) (m : String) (t : JSVal) :
    PreservesKeys eid (mockSendWhatsAppMessage k a m t) := by
  intro st h
  unfold mockSendWhatsAppMessage
  cases hl : st.sentMessages.lookup k <;> simp only [hl] <;> exact h

theorem preservesKeys_mockOrder (eid k : String) (o n : JSVal) :
    PreservesKeys eid (mockAddOrderNote k o n) := by
  intro st h
  unfold mockAddOrderNote
  cases hl : st.orderNotes.lookup k <;> simp only [hl] <;> exact h

theorem preservesKeys_mockCustomer (eid k : String) (c n : JSVal) :
    PreservesKeys eid (mockAddCustomerNote k c n) := by
  intro st h
  unfold mockAddCustomerNote
  cases hl : st.customerNotes.lookup k <;> simp only [hl] <;> exact h

theorem preservesKeys_executeTrigger (eid : String) (node : FlowNode) (data : Ctx) (key : String) :
    PreservesKeys eid (executeTrigger node data key) := preservesKeys_pure eid _

theorem preservesKeys_executeSendMessage (eid : String) (node : FlowNode) (data : Ctx)
    (key : String) : PreservesKeys eid (executeSendMessage node data key) := by
  intro st h
  unfold executeSendMessage
  rcases hm : jsOrVal (node.config.getD {}).message (.str "Default message") with _ | _ | b | n | m <;>
    simp only [hm] <;>
    first
      | exact h
      | exact preservesKeys_bind eid _ _ (preservesKeys_mockSend eid key _ _ _)
          (fun r => preservesKeys_pure eid _) st h

theorem preservesKeys_executeAddOrderNote (eid : String) (node : FlowNode) (data : Ctx)
    (key : String) : PreservesKeys eid (executeAddOrderNote node data key) := by
  unfold executeAddOrderNote
  exact preservesKeys_bind eid _ _ (preservesKeys_mockOrder eid key _ _)
    (fun r => preservesKeys_pure eid _)

theorem preservesKeys_executeAddCustomerNote (eid : String) (node : FlowNode) (data : Ctx)
    (key : String) : PreservesKeys eid (executeAddCustomerNote node data key) := by
  unfold executeAddCustomerNote
  exact preservesKeys_bind eid _ _ (preservesKeys_mockCustomer eid key _ _)
    (fun r => preservesKeys_pure eid _)

theorem preservesKeys_executeTimeDelay (eid : String) (node : FlowNode) (flow : Flow)
    (executionId' : String) (data : Ctx) (branchId : String) :
    PreservesKeys eid (executeTimeDelay node flow executionId' data branchId) := by
  intro st h
  exact keysOK_updateEntry eid node.id _ (by intro n; exact ⟨rfl, rfl⟩) _ h

theorem preservesKeys_executeEnd (eid : String) (node : FlowNode) (flow : Flow)
    (executionId' : String) (data : Ctx) :
    PreservesKeys eid (executeEnd node flow executionId' data) := by
  intro st h
  unfold executeEnd
  cases hf : findEntry st node.id with
  | none =>
    simp only [hf]
    split <;> exact h
  | some e =>
    simp only [hf]
    split <;> exact keysOK_updateEntry eid node.id _ (by intro n; exact ⟨rfl, rfl⟩) st h

theorem preservesKeys_executeConditionalSplit (eid : String)
    (recur : FlowNode → String → EM Unit) (node : FlowNode) (flow : Flow) (data : Ctx)
    (branchId : String) (hrec : ∀ nd b, PreservesKeys eid (recur nd b)) :
    PreservesKeys eid (executeConditionalSplit recur node flow data branchId) := by
  unfold executeConditionalSplit
  apply preservesKeys_bind eid _ _
    (preservesKeys_modify eid _ (keysOK_updateEntry eid node.id _ (by intro n; exact ⟨rfl, rfl⟩)))
  intro a
  cases hE : (flow.edges.filter (fun e => e.source == node.id)).find? (fun e =>
      e.sourceHandle == some (if evalSplit (node.config.getD {}) data then "true" else "false")) with
  | none => simp only [hE]; exact preservesKeys_pure eid _
  | some edge =>
    simp only [hE]
    cases hN : flow.nodes.find? (fun n => n.id == edge.target) with
    | none => simp only [hN]; exact preservesKeys_pure eid _
    | some nx =>
      simp only [hN]
      exact preservesKeys_bind eid _ _ (hrec nx branchId) (fun _ => preservesKeys_pure eid _)

theorem preservesKeys_runChildren (eid : String) (recur : FlowNode → String → EM Unit)
    (flow : Flow) (branchId : String) (multi : Bool)
    (hrec : ∀ nd b, PreservesKeys eid (recur nd b)) :
    ∀ (i : Nat) (edges : List FlowEdge),
      PreservesKeys eid (runChildren recur flow branchId multi i edges) := by
  intro i edges
  induction edges generalizing i with
  | nil => exact preservesKeys_pure eid _
  | cons e rest ih =>
    rw [runChildren]
    apply preservesKeys_bind eid
    · cases hN : flow.nodes.find? (fun n => n.id == e.target) with
      | none => simp only [hN]; exact preservesKeys_pure eid _
      | some nx => simp only [hN]; exact hrec nx _
    · intro a
      exact ih (i + 1)

theorem preservesKeys_fanOut (eid : String) (recur : FlowNode → String → EM Unit)
    (node : FlowNode) (flow : Flow) (branchId : String)
    (hrec : ∀ nd b, PreservesKeys eid (recur nd b)) :
    PreservesKeys eid (fanOut recur node flow branchId) := by
  unfold fanOut
  apply preservesKeys_bind eid
  · split
    · exact preservesKeys_modify eid _ (by intro st h; exact h)
    · exact preservesKeys_pure eid _
  · intro a
    exact preservesKeys_runChildren eid recur flow branchId _ hrec 0 _

theorem preservesKeys_completeThen (eid : String) (recur : FlowNode → String → EM Unit)
    (node : FlowNode) (flow : Flow) (branchId : String) (r : NodeResult)
    (hrec : ∀ nd b, PreservesKeys eid (recur nd b)) :
    PreservesKeys eid (completeThen recur node flow branchId r) := by
  unfold completeThen
  exact preservesKeys_bind eid _ _
    (preservesKeys_modify eid _ (keysOK_updateEntry eid node.id _ (by intro n; exact ⟨rfl, rfl⟩)))
    (fun _ => preservesKeys_fanOut eid recur node flow branchId hrec)

theorem preservesKeys_runAttempt (eid : String) (recur : FlowNode → String → EM Unit)
    (node : FlowNode) (flow : Flow) (executionId' : String) (data : Ctx) (branchId : String)
    (hrec : ∀ nd b, PreservesKeys eid (recur nd b)) :
    PreservesKeys eid (runAttempt recur node flow executionId' data branchId) := by
  unfold runAttempt
  split
  · exact preservesKeys_bind eid _ _ (preservesKeys_executeTrigger eid _ _ _)
      (fun r => preservesKeys_completeThen eid recur node flow branchId r hrec)
  · split
    · exact preservesKeys_bind eid _ _ (preservesKeys_executeSendMessage eid _ _ _)
        (fun r => preservesKeys_completeThen eid recur node flow branchId r hrec)
    · split
      · exact preservesKeys_bind eid _ _ (preservesKeys_executeAddOrderNote eid _ _ _)
          (fun r => preservesKeys_completeThen eid recur node flow branchId r hrec)
      · split
        · exact preservesKeys_bind eid _ _ (preservesKeys_executeAddCustomerNote eid _ _ _)
            (fun r => preservesKeys_completeThen eid recur node flow branchId r hrec)
        · split
          · exact preservesKeys_executeTimeDelay eid node flow executionId' data branchId
          · split
            · exact preservesKeys_bind eid _ _
                (preservesKeys_executeConditionalSplit eid recur node flow data branchId hrec)
                (fun _ => preservesKeys_pure eid _)
            · exact preservesKeys_throw eid _

theorem preservesKeys_catchHandler (eid nodeId : String) (retrySelf : EM Unit)
    (hretry : PreservesKeys eid retrySelf) :
    ∀ e, PreservesKeys eid (catchHandler nodeId retrySelf e) := by
  intro e
  unfold catchHandler
  apply preservesKeys_bind eid _ _ (preservesKeys_get eid)
  intro st'
  by_cases hrc : ((findEntry st' nodeId).map (fun n => n.retryCount)).getD 0 < 3
  · simp only [if_pos hrc]
    exact preservesKeys_bind eid _ _ (preservesKeys_modify eid _ (by intro st h; exact h))
      (fun _ => preservesKeys_bind eid _ _
        (preservesKeys_modify eid _ (keysOK_updateEntry eid nodeId _ (by intro n; exact ⟨rfl, rfl⟩)))
        (fun _ => hretry))
  · simp only [if_neg hrc]
    exact preservesKeys_bind eid _ _
      (preservesKeys_modify eid _ (keysOK_updateEntry eid nodeId _ (by intro n; exact ⟨rfl, rfl⟩)))
      (fun _ => preservesKeys_throw eid _)

theorem preservesKeys_executeNode (eid : String) :
    ∀ (fuel : Nat) (node : FlowNode) (flow : Flow) (data : Ctx) (branchId : String),
      PreservesKeys eid (executeNode fuel node flow eid data branchId) := by
  intro fuel
  induction fuel with
  | zero => intro node flow data branchId; exact preservesKeys_throw eid _
  | succ fuel ih =>
    intro node flow data branchId
    rw [executeNode]
    split
    · apply preservesKeys_bind eid
      · apply preservesKeys_modify eid
        intro st h
        split
        · exact h
        · exact keysOK_pushEntry eid node st h
      · intro a
        exact preservesKeys_bind eid _ _ (preservesKeys_executeEnd eid node flow eid data)
          (fun r => preservesKeys_modify eid _
            (keysOK_updateEntry eid node.id _ (by intro n; exact ⟨rfl, rfl⟩)))
    · apply preservesKeys_bind eid _ _ (preservesKeys_get eid)
      intro st0
      cases hf : findEntry st0 node.id with
      | some en =>
        simp only [hf]
        split
        · exact preservesKeys_pure eid _
        · exact preservesKeys_tryCatch eid _ _
            (preservesKeys_runAttempt eid _ node flow eid data branchId
              (fun nd b => ih nd flow data b))
            (preservesKeys_catchHandler eid node.id _ (ih node flow data branchId))
      | none =>
        simp only [hf]
        apply preservesKeys_bind eid _ _
          (preservesKeys_modify eid _ (keysOK_pushEntry eid node))
        intro a
        exact preservesKeys_tryCatch eid _ _
          (preservesKeys_runAttempt eid _ node flow eid data branchId
            (fun nd b => ih nd flow data b))
          (preservesKeys_catchHandler eid node.id _ (ih node flow data branchId))

theorem preservesKeys_runResume (eid : String) (fuel : Nat) (flow : Flow) (context : Ctx)
    (branchId : String) (multi : Bool) :
    ∀ (i : Nat) (nids : List String),
      PreservesKeys eid (runResume fuel flow eid context branchId multi i nids) := by
  intro i nids
  induction nids generalizing i with
  | nil => exact preservesKeys_pure eid _
  | cons nid rest ih =>
    rw [runResume]
    apply preservesKeys_bind eid
    · cases hN : flow.nodes.find? (fun n => n.id == nid) with
      | none => simp only [hN]; exact preservesKeys_pure eid _
      | some nx => simp only [hN]; exact preservesKeys_executeNode eid fuel nx flow context _
    · intro a
      exact ih (i + 1)

theorem preservesKeys_handleDelayResume (eid : String) (fuel : Nat) (flow : Flow)
    (nextNodeIds : List String) (context : Ctx) (branchId : String) :
    PreservesKeys eid (handleDelayResume fuel flow eid nextNodeIds context branchId) := by
  unfold handleDelayResume
  apply preservesKeys_bind eid _ _ (preservesKeys_get eid)
  intro st
  apply preservesKeys_bind eid _ _ (preservesKeys_modify eid _ (by intro s h; exact h))
  intro a
  apply preservesKeys_bind eid _ _ (preservesKeys_get eid)
  intro st1
  apply preservesKeys_bind eid
  · split
    · exact preservesKeys_pure eid _
    · exact preservesKeys_modify eid _ (by intro s h; exact h)
  · intro b
    split
    · exact preservesKeys_bind eid _ _ (preservesKeys_modify eid _ (by intro s h; exact h))
        (fun _ => preservesKeys_bind eid _ _ (preservesKeys_modify eid _ (by intro s h; exact h))
          (fun _ => preservesKeys_runResume eid fuel flow context branchId true 0 nextNodeIds))
    · exact preservesKeys_runResume eid fuel flow context branchId false 0 nextNodeIds

/-- A SEND_MESSAGE flow for the C9 scenario. -/
def msgFlowC9 : Flow :=
  { nodes := [ { id := "t", type := "TRIGGER" },
               { id := "m", type := "SEND_MESSAGE",
                 config := some { message := some (.str "hi") } } ],
    edges := [ { id := "e1", source := "t", target := "m" } ] }

/-- The final world of running the SEND_MESSAGE flow. -/
def runC9 : EngineState := runFlow 10 msgFlowC9 "exec1" "flow1" []

/-- Counterexample to C9 as stated: the key joins run id and node id with an
**underscore**, not a colon — both on the recorded entry and in the key the
adapter's idempotency map was called with. -/
theorem c9_counterexample :
    idemKey "exec1" "m" = "exec1_m"
    ∧ idemKey "exec1" "m" ≠ "exec1" ++ ":" ++ "m"
    ∧ ((findEntry runC9 "m").map (fun n => n.idempotencyKey) = some "exec1_m")
    ∧ (runC9.sentMessages.map (fun p => p.1) = ["exec1_m"]) := by
  exact ⟨rfl, by decide, by decide, by decide⟩

/-- C9 (amended): the idempotency key recorded on a NodeExecution and passed
to the adapters is `runId ++ "_" ++ nodeId` (underscore-joined, not
colon-joined).  A freshly pushed entry records exactly this key; the
SEND_MESSAGE dispatch hands exactly this key to the adapter; and the key
invariant `keysOK` is preserved by `executeNode` (hence across the retry
recursion) and by the delay-resume handler — the key is identical on every
retry and resume of a node. -/
theorem c9_idempotency_key :
    (∀ rid nid : String, idemKey rid nid = rid ++ "_" ++ nid)
  ∧ (∀ (executionId : String) (node : FlowNode) (st : EngineState),
       findEntry st node.id = none →
       findEntry (pushEntry node (idemKey executionId node.id) st) node.id
         = some (newEntry node (idemKey executionId node.id)))
  ∧ (∀ (recur : FlowNode → String → EM Unit) (node : FlowNode) (flow : Flow)
       (executionId : String) (data : Ctx) (branchId : String),
       node.type = "SEND_MESSAGE" →
       runAttempt recur node flow executionId data branchId
         = (executeSendMessage node data (idemKey executionId node.id) >>=
            completeThen recur node flow branchId))
  ∧ (∀ (executionId : String) (fuel : Nat) (node : FlowNode) (flow : Flow) (data : Ctx)
       (branchId : String),
       PreservesKeys executionId (executeNode fuel node flow executionId data branchId))
  ∧ (∀ (executionId : String) (fuel : Nat) (flow : Flow) (nextNodeIds : List String)
       (context : Ctx) (branchId : String),
       PreservesKeys executionId
         (handleDelayResume fuel flow executionId nextNodeIds context branchId)) := by
  refine ⟨fun rid nid => rfl, ?_, ?_, ?_, ?_⟩
  · intro executionId node st hnone
    unfold findEntry at hnone
    unfold findEntry pushEntry
    rw [find?_append_none _ _ _ hnone]
    simp [newEntry]
  · intro recur node flow executionId data branchId h
    unfold runAttempt
    rw [h]
    rfl
  · intro executionId fuel node flow data branchId
    exact preservesKeys_executeNode executionId fuel node flow data branchId
  · intro executionId fuel flow nextNodeIds context branchId
    exact preservesKeys_handleDelayResume executionId fuel flow nextNodeIds context branchId

/-- The SEND_MESSAGE node of the C9 witness. -/
def nodeC9 : FlowNode :=
  { id := "m", type := "SEND_MESSAGE", config := some { message := some (.str "hi") } }

/-- A fresh world with no entries. -/
def stC9 : EngineState :=
  { exec := { id := "exec1", flowId := "flow1", status := "running", triggerData := [],
              branches := [], executedNodes := [] } }

/-- Witness for C9 (amended) at the concrete SEND_MESSAGE node. -/
theorem c9_idempotency_key_witness :
    idemKey "exec1" "m" = "exec1" ++ "_" ++ "m"
    ∧ (findEntry (pushEntry nodeC9 (idemKey "exec1" nodeC9.id) stC9) nodeC9.id
        = some (newEntry nodeC9 (idemKey "exec1" nodeC9.id)))
    ∧ keysOK "exec1" (executeNode 10 nodeC9 msgFlowC9 "exec1" [] "root" stC9).2 := by
  obtain ⟨h1, h2, h3, h4, h5⟩ := c9_idempotency_key
  exact ⟨h1 "exec1" "m", h2 "exec1" nodeC9 stC9 (by decide),
    h4 "exec1" 10 nodeC9 msgFlowC9 [] "root" stC9
      (by intro en hen; exact absurd hen (List.not_mem_nil en))⟩

/-! ## C10 — template variable replacement.
A message template is viewed as a list of segments: literal text and
`\x7bname\x7d` placeholders.  `renderSegs` produces the raw template string;
the claim is that the replacement loop of `executeSendMessage` rewrites
every placeholder according to `data[name] || "[name]"`. -/

/-- A template segment: literal text or a placeholder over a name. -/
inductive Seg where
  | lit (s : List Char)
  | hole (n : List Char)
deriving DecidableEq

/-- The raw text of one segment. -/
def renderSeg : Seg → List Char
  | .lit s => s
  | .hole n => lbrace :: (n ++ [rbrace])

/-- The raw template text of a segment list. -/
def renderSegs : List Seg → List Char
  | [] => []
  | s :: rest => renderSeg s ++ renderSegs rest

/-- The intended substitution of one segment: a literal stays, a placeholder
becomes its replacement value. -/
def substSeg (data : Ctx) : Seg → List Char
  | .lit s => s
  | .hole n => replFor data (renderSeg (.hole n))

/-- The intended substitution of the whole template. -/
def substSegs (data : Ctx) : List Seg → List Char
  | [] => []
  | s :: rest => substSeg data s ++ substSegs data rest

/-- The matches the regex scan should produce: one per placeholder. -/
def matchesOf : List Seg → List (List Char)
  | [] => []
  | .lit _ :: rest => matchesOf rest
  | .hole n :: rest => renderSeg (.hole n) :: matchesOf rest

/-- `c` does not occur in `l` (boolean, for decidable witnesses). -/
def noChar (c : Char) (l : List Char) : Bool := l.all (fun d => !(d == c))

/-- Well-formedness of a segment: literals are brace-free; names are
nonempty and free of braces and dollars. -/
def segWF : Seg → Bool
  | .lit s => noChar lbrace s
  | .hole n => !n.isEmpty && noChar lbrace n && noChar rbrace n && noChar dollarCh n

/-- Well-formedness of a context: every value's string form is free of
opening braces and dollars. -/
def dataWF (data : Ctx) : Bool :=
  data.all (fun p =>
    noChar lbrace (jsToString p.2).data && noChar dollarCh (jsToString p.2).data)

theorem not_mem_of_noChar {c : Char} {l : List Char} (h : noChar c l = true) : c ∉ l := by
  intro hm
  have := List.all_eq_true.mp h c hm
  simp at this

theorem scanMatches_none_append (P X : List Char) (h : lbrace ∉ P) :
    scanMatches none (P ++ X) = scanMatches none X := by
  induction P with
  | nil => rfl
  | cons c cs ih =>
    have hc : c ≠ lbrace := fun hceq => h (hceq ▸ List.mem_cons_self c cs)
    rw [List.cons_append]
    simp only [scanMatches, if_neg hc]
    exact ih (fun hm => h (List.mem_cons_of_mem _ hm))

theorem scanMatches_some_name (n : List Char) (hn : rbrace ∉ n) :
    ∀ acc rest, scanMatches (some acc) (n ++ rbrace :: rest)
      = (if (acc ++ n).isEmpty then scanMatches none rest
         else (lbrace :: ((acc ++ n) ++ [rbrace])) :: scanMatches none rest) := by
  induction n with
  | nil =>
    intro acc rest
    rw [List.nil_append]
    rw [show scanMatches (some acc) (rbrace :: rest)
        = (if acc.isEmpty then scanMatches none rest
           else (lbrace :: (acc ++ [rbrace])) :: scanMatches none rest) by simp [scanMatches]]
    simp [List.append_nil]
  | cons c cs ih =>
    intro acc rest
    have hc : c ≠ rbrace := fun hceq => hn (hceq ▸ List.mem_cons_self c cs)
    rw [List.cons_append]
    simp only [scanMatches, if_neg hc]
    rw [ih (fun hm => hn (List.mem_cons_of_mem _ hm)) (acc ++ [c]) rest]
    rw [List.append_assoc acc [c] cs, List.singleton_append]

theorem scanMatches_render (segs : List Seg) (h : ∀ s ∈ segs, segWF s = true) :
    scanMatches none (renderSegs segs) = matchesOf segs := by
  induction segs with
  | nil => rfl
  | cons s rest ih =>
    cases s with
    | lit l =>
      have hl : lbrace ∉ l := not_mem_of_noChar (h _ (List.mem_cons_self _ _))
      rw [renderSegs, renderSeg]
      rw [scanMatches_none_append l _ hl, matchesOf]
      exact ih (fun s hs => h s (List.mem_cons_of_mem _ hs))
    | hole n =>
      have hwf := h _ (List.mem_cons_self _ _)
      simp only [segWF, Bool.and_eq_true, Bool.not_eq_true'] at hwf
      obtain ⟨⟨⟨hne, hlb⟩, hrb⟩, hds⟩ := hwf
      rw [renderSegs, renderSeg]
      rw [show (lbrace :: (n ++ [rbrace])) ++ renderSegs rest
          = lbrace :: (n ++ (rbrace :: renderSegs rest)) by simp]
      rw [show scanMatches none (lbrace :: (n ++ (rbrace :: renderSegs rest)))
          = scanMatches (some []) (n ++ (rbrace :: renderSegs rest)) by simp [scanMatches]]
      rw [scanMatches_some_name n (not_mem_of_noChar hrb) [] (renderSegs rest)]
      simp only [List.nil_append]
      rw [if_neg (by simp [hne])]
      rw [matchesOf, renderSeg]
      rw [ih (fun s hs => h s (List.mem_cons_of_mem _ hs))]

theorem expandRepl_no_dollar (pre matched post : List Char) :
    ∀ r, dollarCh ∉ r → expandRepl pre matched post r = r := by
  intro r
  induction r with
  | nil => intro _; rfl
  | cons c cs ih =>
    intro h
    have hc : c ≠ dollarCh := fun hceq => h (hceq ▸ List.mem_cons_self c cs)
    have hcs := ih (fun hm => h (List.mem_cons_of_mem _ hm))
    rw [expandRepl.eq_def]
    simp only [if_neg hc, hcs]

theorem isPrefixOf_self_append (l r : List Char) : l.isPrefixOf (l ++ r) = true := by
  induction l with
  | nil => simp [List.isPrefixOf]
  | cons c cs ih => simp [List.isPrefixOf, ih]

theorem replaceFirstAux_skip (pt repl : List Char) :
    ∀ (P : List Char), lbrace ∉ P → ∀ (pre X : List Char),
      replaceFirstAux (lbrace :: pt) repl pre (P ++ X)
        = replaceFirstAux (lbrace :: pt) repl (P.reverse ++ pre) X := by
  intro P
  induction P with
  | nil => intro _ pre X; simp
  | cons c cs ih =>
    intro h pre X
    have hc : c ≠ lbrace := fun hceq => h (hceq ▸ List.mem_cons_self c cs)
    rw [List.cons_append, replaceFirstAux]
    rw [if_neg (by
      simp only [List.isPrefixOf, Bool.and_eq_true, beq_iff_eq]
      rintro ⟨hceq, -⟩
      exact hc hceq.symm)]
    rw [ih (fun hm => h (List.mem_cons_of_mem _ hm)) (c :: pre) X]
    rw [List.reverse_cons, List.append_assoc, List.singleton_append]

theorem replaceFirstAux_head (p0 : Char) (pt repl : List Char) (pre R : List Char) :
    replaceFirstAux (p0 :: pt) repl pre ((p0 :: pt) ++ R)
      = pre.reverse ++ expandRepl pre.reverse (p0 :: pt) R repl ++ R := by
  rw [List.cons_append, replaceFirstAux]
  rw [if_pos (by
    rw [show p0 :: (pt ++ R) = (p0 :: pt) ++ R from rfl]
    exact isPrefixOf_self_append _ _)]
  rw [show (p0 :: (pt ++ R)).drop (p0 :: pt).length = R by
    rw [show p0 :: (pt ++ R) = (p0 :: pt) ++ R from rfl]
    exact List.drop_left _ _]

theorem jsReplaceFirst_mid (P n R repl : List Char)
    (hP : lbrace ∉ P) (hrepl : dollarCh ∉ repl) :
    jsReplaceFirst ((P ++ (lbrace :: (n ++ [rbrace]))) ++ R) (lbrace :: (n ++ [rbrace])) repl
      = (P ++ repl) ++ R := by
  unfold jsReplaceFirst
  rw [if_neg (by simp)]
  rw [List.append_assoc P _ R]
  rw [replaceFirstAux_skip (n ++ [rbrace]) repl P hP [] _]
  rw [replaceFirstAux_head lbrace (n ++ [rbrace]) repl (P.reverse ++ []) R]
  rw [expandRepl_no_dollar _ _ _ repl hrepl]
  simp

theorem replFor_eq (data : Ctx) (n : List Char) :
    replFor data (lbrace :: (n ++ [rbrace]))
      = (jsToString (jsOrVal (data.lookup (String.mk n))
          (.str ("[" ++ String.mk n ++ "]")))).data := by
  unfold replFor
  rw [show ((lbrace :: (n ++ [rbrace])).drop 1).dropLast = n by
    simp [List.dropLast_concat]]

theorem replFor_wf (data : Ctx) (hdata : dataWF data = true) (n : List Char)
    (hlb : lbrace ∉ n) (hds : dollarCh ∉ n) :
    lbrace ∉ replFor data (lbrace :: (n ++ [rbrace]))
    ∧ dollarCh ∉ replFor data (lbrace :: (n ++ [rbrace])) := by
  rw [replFor_eq]
  have hfall1 : lbrace ∉ ("[" ++ String.mk n ++ "]").data := by
    simp only [String.data_append]
    intro hm
    rcases List.mem_append.mp hm with hm1 | hm1
    · rcases List.mem_append.mp hm1 with hm2 | hm2
      · revert hm2
        decide
      · exact hlb hm2
    · revert hm1
      decide
  have hfall2 : dollarCh ∉ ("[" ++ String.mk n ++ "]").data := by
    simp only [String.data_append]
    intro hm
    rcases List.mem_append.mp hm with hm1 | hm1
    · rcases List.mem_append.mp hm1 with hm2 | hm2
      · revert hm2
        decide
      · exact hds hm2
    · revert hm1
      decide
  cases hl : data.lookup (String.mk n) with
  | none => exact ⟨hfall1, hfall2⟩
  | some v =>
    by_cases ht : jsTruthy v = true
    · have hmem := mem_of_lookup hl
      have hv := List.all_eq_true.mp hdata _ hmem
      simp only [Bool.and_eq_true] at hv
      simp only [jsOrVal, ht, if_true]
      exact ⟨not_mem_of_noChar hv.1, not_mem_of_noChar hv.2⟩
    · simp only [jsOrVal, ht, if_false]
      exact ⟨hfall1, hfall2⟩

theorem processLoop_render (data : Ctx) (hdata : dataWF data = true) :
    ∀ (segs : List Seg) (P : List Char), (∀ s ∈ segs, segWF s = true) → lbrace ∉ P →
      (matchesOf segs).foldl (fun acc m => jsReplaceFirst acc m (replFor data m))
          (P ++ renderSegs segs)
        = P ++ substSegs data segs := by
  intro segs
  induction segs with
  | nil =>
    intro P _ _
    simp [matchesOf, renderSegs, substSegs]
  | cons s rest ih =>
    intro P h hP
    cases s with
    | lit l =>
      have hl : lbrace ∉ l := not_mem_of_noChar (h _ (List.mem_cons_self _ _))
      rw [matchesOf, renderSegs, renderSeg, substSegs, substSeg]
      rw [← List.append_assoc P l (renderSegs rest)]
      rw [ih (P ++ l) (fun s hs => h s (List.mem_cons_of_mem _ hs))
        (fun hm => (List.mem_append.mp hm).elim hP hl)]
      rw [List.append_assoc]
    | hole n =>
      have hwf := h _ (List.mem_cons_self _ _)
      simp only [segWF, Bool.and_eq_true, Bool.not_eq_true'] at hwf
      obtain ⟨⟨⟨hne, hlb⟩, hrb⟩, hds⟩ := hwf
      have hrwf := replFor_wf data hdata n (not_mem_of_noChar hlb) (not_mem_of_noChar hds)
      rw [matchesOf, renderSegs, renderSeg, substSegs, substSeg, renderSeg, List.foldl_cons]
      rw [← List.append_assoc P (lbrace :: (n ++ [rbrace])) (renderSegs rest)]
      rw [jsReplaceFirst_mid P n (renderSegs rest) _ hP hrwf.2]
      rw [ih (P ++ replFor data (lbrace :: (n ++ [rbrace])))
        (fun s hs => h s (List.mem_cons_of_mem _ hs))
        (fun hm => (List.mem_append.mp hm).elim hP hrwf.1)]
      rw [List.append_assoc]

/-- C10: every placeholder of a well-formed template is replaced before the
adapter call — by the context value when truthy, by the literal `[name]`
when the field is missing or falsy — and the processed message is both the
message handed to the send adapter and the message in the node's result
payload. -/
theorem c10_template_replacement :
    (∀ (segs : List Seg) (data : Ctx),
       (∀ s ∈ segs, segWF s = true) → dataWF data = true →
       processMessage (String.mk (renderSegs segs)) data = String.mk (substSegs data segs))
  ∧ (∀ (node : FlowNode) (data : Ctx) (key : String) (template : String),
       jsOrVal (node.config.getD {}).message (.str "Default message") = .str template →
       executeSendMessage node data key
         = (mockSendWhatsAppMessage key
             (jsOrVal (data.lookup "customer_phone") (.str "+1234567890"))
             (processMessage template data)
             (jsOrVal (node.config.getD {}).template (.str "default"))
            >>= fun resp =>
            pure (.sendMessage resp.toAddr (processMessage template data) resp.messageId))) := by
  constructor
  · intro segs data hsegs hdata
    unfold processMessage findMatches
    rw [show (String.mk (renderSegs segs)).data = renderSegs segs from rfl]
    rw [scanMatches_render segs hsegs]
    rw [show renderSegs segs = [] ++ renderSegs segs from (List.nil_append _).symm]
    rw [processLoop_render data hdata segs [] hsegs (by simp)]
    rw [List.nil_append]
  · intro node data key template h
    unfold executeSendMessage
    simp only [h]

/-- Template segments of the C10 witness: literal text, a truthy field and
a falsy (0-valued) field. -/
def segsC10 : List Seg :=
  [ .lit "Hello ".data, .hole "name".data, .lit ", items ".data, .hole "count".data ]

/-- The C10 witness context: `name` is truthy, `count` is falsy. -/
def dataC10 : Ctx := [("name", .str "Ana"), ("count", .num 0)]

/-- The SEND_MESSAGE node configured with the rendered template. -/
def nodeC10 : FlowNode :=
  { id := "m", type := "SEND_MESSAGE",
    config := some { message := some (.str (String.mk (renderSegs segsC10))) } }

/-- Witness for C10 at the concrete template: the truthy field is replaced
by its value, the falsy field by the literal `[count]`, and the processed
message is passed to the adapter and stored in the result payload. -/
theorem c10_template_replacement_witness :
    (processMessage (String.mk (renderSegs segsC10)) dataC10
      = String.mk (substSegs dataC10 segsC10))
    ∧ (String.mk (substSegs dataC10 segsC10) = "Hello Ana, items [count]")
    ∧ (executeSendMessage nodeC10 dataC10 "k"
        = (mockSendWhatsAppMessage "k"
            (jsOrVal (dataC10.lookup "customer_phone") (.str "+1234567890"))
            (processMessage (String.mk (renderSegs segsC10)) dataC10)
            (jsOrVal (nodeC10.config.getD {}).template (.str "default"))
           >>= fun resp =>
           pure (.sendMessage resp.toAddr
             (processMessage (String.mk (renderSegs segsC10)) dataC10) resp.messageId))) := by
  obtain ⟨h1, h2⟩ := c10_template_replacement
  refine ⟨h1 segsC10 dataC10 (by decide) (by decide), by decide, ?_⟩
  exact h2 nodeC10 dataC10 "k" (String.mk (renderSegs segsC10)) (by decide)

end FlowSpec
